import Mathlib

/-!
Verification model of the krk-fd back-office API.

The definitions below are a shallow embedding of the repository's
controllers.  Database tables are lists of rows, SQL reads are list
lookups, SQL updates are list maps, and asynchronous failures that a
claim is about (the failure injected between the canonical write and the
status update in approve) are explicit boolean parameters.  Each
definition carries a reference to the controller function it embeds.
-/

namespace KrkFd

/-! ## Loan-request ticket workflow

Embeds src/controllers/financeLoanRequestController.ts (takeLoanRequest,
updateLoanRequestStatus) and src/controllers/adminLoanRequestController.ts
(reassignLoanRequest, bulkReassignLoanRequests, escalateLoanRequest,
bulkEscalateLoanRequests, changeAdminLoanRequestStatus).
-/

/-- The five loan-request statuses accepted by the zod enum
z.enum(['received', 'under_review', 'contacted', 'closed', 'rejected']).
Every write stores one of these five values, so the stored status column is
modelled with the same enumeration. -/
inductive LRStatus
  | received
  | under_review
  | contacted
  | closed
  | rejected
deriving DecidableEq, Repr

/-- Text rendering of a status, as stored in audit-log old/new values. -/
def LRStatus.toText : LRStatus → String
  | .received => "received"
  | .under_review => "under_review"
  | .contacted => "contacted"
  | .closed => "closed"
  | .rejected => "rejected"

/-- ALLOWED_STATUS_TRANSITIONS from financeLoanRequestController.ts lines
15-19; the lookup `ALLOWED_STATUS_TRANSITIONS[existing.status] || []` yields
the empty list for closed and rejected. -/
def allowedStatusTransitions : LRStatus → List LRStatus
  | .received => [.under_review, .rejected]
  | .under_review => [.contacted, .rejected]
  | .contacted => [.closed, .rejected]
  | .closed => []
  | .rejected => []

/-- A row of the loan_requests table (models/loanRequest.ts), restricted to
the columns the ticket-workflow claims are about.  Timestamps are Nat. -/
structure Ticket where
  id : Nat
  status : LRStatus
  assigneeId : Option Nat
  version : Nat
  priority : String
  isEscalated : Bool
  escalationReason : Option String
  lastActivityAt : Nat
  updatedAt : Nat
  deletedAt : Option Nat
deriving DecidableEq, Repr

/-- A row of the users table, restricted to the columns the loan-request
controllers read. -/
structure User where
  id : Nat
  name : String
  role : String
  department : String
  active : Bool
deriving DecidableEq, Repr

/-- A row of the loan_request_assignments table. -/
structure AssignmentRec where
  loanRequestId : Nat
  assignedById : Nat
  assigneeId : Nat
  comment : Option String
deriving DecidableEq, Repr

/-- A row of the loan_request_audit_logs table. -/
structure AuditEntry where
  loanRequestId : Nat
  actorId : Nat
  action : String
  oldValue : Option String
  newValue : Option String
  comment : Option String
deriving DecidableEq, Repr

/-- The mutable store the loan-request controllers touch. -/
structure LRState where
  tickets : List Ticket
  users : List User
  assignments : List AssignmentRec
  auditLogs : List AuditEntry
deriving DecidableEq, Repr

/-- JavaScript `x || null` on an optional string: the empty string is falsy
and becomes null. -/
def jsStringOrNull : Option String → Option String
  | some "" => none
  | o => o

/-- The createAuditLog helper (financeLoanRequestController.ts lines 21-30):
appends one audit row, coercing falsy old/new/comment values to null. -/
def createAuditLog (s : LRState) (loanRequestId actorId : Nat) (action : String)
    (oldValue newValue comment : Option String) : LRState :=
  { s with auditLogs := s.auditLogs ++
      [{ loanRequestId := loanRequestId, actorId := actorId, action := action,
         oldValue := jsStringOrNull oldValue, newValue := jsStringOrNull newValue,
         comment := jsStringOrNull comment }] }

/-- The initial read every single-ticket operation performs:
select ... where id = ? and deleted_at is null limit 1. -/
def findTicket (s : LRState) (id : Nat) : Option Ticket :=
  s.tickets.find? (fun t => decide (t.id = id ∧ t.deletedAt = none))

/-- The conditional optimistic-concurrency write shared by take, reassign,
escalate and both changeStatus variants: update ... set (f) where id = ? and
version = observedVersion returning.  Returns the first updated row (the
destructuring [updated]) and the new table state. -/
def condUpdate (s : LRState) (id obsVersion : Nat) (f : Ticket → Ticket) :
    Option Ticket × LRState :=
  let hit := s.tickets.find? (fun t => decide (t.id = id ∧ t.version = obsVersion))
  (hit.map f,
   { s with tickets := s.tickets.map (fun t =>
       if t.id = id ∧ t.version = obsVersion then f t else t) })

/-- The re-read issued when the conditional write matched no row:
select ... where id = ? limit 1 (no deleted_at filter). -/
def currentTicket (s : LRState) (id : Nat) : Option Ticket :=
  s.tickets.find? (fun t => decide (t.id = id))

/-- Result of takeLoanRequest. -/
inductive TakeResult
  | notFound
  | alreadyAssigned (message : String) (loanRequest : Ticket)
  | conflict (current : Option Ticket)
  | success (loanRequest : Ticket)
deriving DecidableEq, Repr

/-- takeLoanRequest (financeLoanRequestController.ts lines 167-227).
Note the update at lines 190-200 sets status to 'under_review'
unconditionally, whatever the current status is. -/
def takeLoanRequest (s : LRState) (id financeId now : Nat) : TakeResult × LRState :=
  match findTicket s id with
  | none => (.notFound, s)
  | some existing =>
    if existing.assigneeId ≠ none ∧ existing.assigneeId ≠ some financeId then
      let assigneeName :=
        match existing.assigneeId.bind
            (fun a => s.users.find? (fun u => decide (u.id = a))) with
        | some u => if u.name = "" then "another user" else u.name
        | none => "another user"
      (.alreadyAssigned ("Already assigned to " ++ assigneeName) existing, s)
    else
      let (updOpt, s1) := condUpdate s id existing.version (fun t =>
        { t with assigneeId := some financeId, status := .under_review,
                 lastActivityAt := now, version := t.version + 1, updatedAt := now })
      match updOpt with
      | none => (.conflict (currentTicket s1 id), s1)
      | some updated =>
        let s2 := { s1 with assignments := s1.assignments ++
          [{ loanRequestId := id, assignedById := financeId, assigneeId := financeId,
             comment := some "Self-assigned" }] }
        let s3 := createAuditLog s2 id financeId "assigned" none
          (some (toString financeId)) (some "Self-assigned")
        let s4 := createAuditLog s3 id financeId "status_change"
          (some existing.status.toText) (some "under_review") none
        (.success updated, s4)

/-- Result of the two changeStatus variants. -/
inductive StatusResult
  | notFound
  | commentRequired
  | invalidTransition (currentStatus requestedStatus : LRStatus)
      (allowedTransitions : List LRStatus)
  | conflict (current : Option Ticket)
  | success (loanRequest : Ticket)
deriving DecidableEq, Repr

/-- Lines 252-283 of updateLoanRequestStatus, starting from the row the call
observed: adjacency check against the observed status, then the conditional
write on the current store, then the audit entry. -/
def updateLoanRequestStatusObserved (s : LRState) (existing : Ticket)
    (financeId now : Nat) (status : LRStatus) (comment : Option String) :
    StatusResult × LRState :=
  let allowed := allowedStatusTransitions existing.status
  if status ∉ allowed then
    (.invalidTransition existing.status status allowed, s)
  else
    let (updOpt, s1) := condUpdate s existing.id existing.version (fun t =>
      { t with status := status, lastActivityAt := now, version := t.version + 1,
               updatedAt := now })
    match updOpt with
    | none => (.conflict (currentTicket s1 existing.id), s1)
    | some updated =>
      (.success updated,
       createAuditLog s1 existing.id financeId "status_change"
         (some existing.status.toText) (some status.toText) comment)

/-- updateLoanRequestStatus (financeLoanRequestController.ts lines 229-291):
comment requirement for closed/rejected (the JS `!comment` guard is falsy on
both a missing and an empty comment), the read, then the observed-row
remainder. -/
def updateLoanRequestStatus (s : LRState) (id financeId now : Nat)
    (status : LRStatus) (comment : Option String) : StatusResult × LRState :=
  if (status = .closed ∨ status = .rejected) ∧
      (comment = none ∨ comment = some "") then
    (.commentRequired, s)
  else
    match findTicket s id with
    | none => (.notFound, s)
    | some existing =>
      updateLoanRequestStatusObserved s existing financeId now status comment

/-- Lines 290-301 of changeAdminLoanRequestStatus, from the observed row on.
Unlike the finance variant there is no adjacency check: the conditional
write applies whatever status the admin requested. -/
def changeAdminLoanRequestStatusObserved (s : LRState) (existing : Ticket)
    (adminId now : Nat) (status : LRStatus) (comment : Option String) :
    StatusResult × LRState :=
  let (updOpt, s1) := condUpdate s existing.id existing.version (fun t =>
    { t with status := status, lastActivityAt := now, version := t.version + 1,
             updatedAt := now })
  match updOpt with
  | none => (.conflict (currentTicket s1 existing.id), s1)
  | some updated =>
    (.success updated,
     createAuditLog s1 existing.id adminId "status_change"
       (some existing.status.toText) (some status.toText) comment)

/-- changeAdminLoanRequestStatus (adminLoanRequestController.ts lines
276-309): comment requirement for closed/rejected (the JS `!comment` guard is
falsy on both a missing and an empty comment), the read, then the
unconditional-transition remainder. -/
def changeAdminLoanRequestStatus (s : LRState) (id adminId now : Nat)
    (status : LRStatus) (comment : Option String) : StatusResult × LRState :=
  if (status = .closed ∨ status = .rejected) ∧
      (comment = none ∨ comment = some "") then
    (.commentRequired, s)
  else
    match findTicket s id with
    | none => (.notFound, s)
    | some existing =>
      changeAdminLoanRequestStatusObserved s existing adminId now status comment

/-- Result of escalate / reassign / the bulk variants. -/
inductive AdminOpResult
  | badRequest (message : String)
  | notFound
  | conflict (current : Option Ticket)
  | success (loanRequest : Ticket)
  | bulkSuccess (count : Nat)
deriving DecidableEq, Repr

/-- escalateLoanRequest (adminLoanRequestController.ts lines 222-250).
The zod schema requires a reason of 10 to 500 characters. -/
def escalateLoanRequest (s : LRState) (id adminId now : Nat) (reason : String) :
    AdminOpResult × LRState :=
  if reason.length < 10 ∨ reason.length > 500 then
    (.badRequest "Invalid reason", s)
  else
    match findTicket s id with
    | none => (.notFound, s)
    | some existing =>
      let (updOpt, s1) := condUpdate s id existing.version (fun t =>
        { t with isEscalated := true, escalationReason := some reason,
                 priority := "high", lastActivityAt := now,
                 version := t.version + 1, updatedAt := now })
      match updOpt with
      | none => (.conflict (currentTicket s1 id), s1)
      | some updated =>
        (.success updated,
         createAuditLog s1 id adminId "escalated" none (some "high") (some reason))

/-- Open tickets counted for an employee by the auto-assign query:
assignee matches, not soft-deleted, status not in ('closed', 'rejected'). -/
def openTicketCount (s : LRState) (uid : Nat) : Nat :=
  s.tickets.countP (fun t => decide (t.assigneeId = some uid ∧ t.deletedAt = none ∧
    t.status ≠ .closed ∧ t.status ≠ .rejected))

/-- Active finance-department employees (role 'employee', department
'Finance', active). -/
def financeEmployeeRows (s : LRState) : List User :=
  s.users.filter (fun u => decide (u.role = "employee" ∧ u.department = "Finance" ∧
    u.active = true))

/-- The auto-assign pick: order by COUNT(open tickets) limit 1.  SQL does not
fix the order between equally loaded employees; we take the first minimal
row in table order. -/
def leastBusyFinance (s : LRState) : Option Nat :=
  ((financeEmployeeRows s).foldl (fun acc u =>
    match acc with
    | none => some u
    | some b => if openTicketCount s u.id < openTicketCount s b.id then some u else some b)
    none).map (fun u => u.id)

/-- reassignLoanRequest (adminLoanRequestController.ts lines 121-175). -/
def reassignLoanRequest (s : LRState) (id adminId now : Nat)
    (assigneeId : Option Nat) (comment : Option String) (autoAssign : Bool) :
    AdminOpResult × LRState :=
  if assigneeId = none ∧ autoAssign = false then
    (.badRequest "assigneeId or autoAssign required", s)
  else
    match findTicket s id with
    | none => (.notFound, s)
    | some existing =>
      let targetOpt := if autoAssign then leastBusyFinance s else assigneeId
      match targetOpt with
      | none => (.badRequest "No active finance employees available", s)
      | some target =>
        match s.users.find? (fun u => decide (u.id = target ∧ u.role = "employee" ∧
            u.department = "Finance" ∧ u.active = true)) with
        | none => (.badRequest "Invalid assignee", s)
        | some _ =>
          let (updOpt, s1) := condUpdate s id existing.version (fun t =>
            { t with assigneeId := some target,
                     status := if existing.status = .received then .under_review
                               else existing.status,
                     lastActivityAt := now, version := t.version + 1, updatedAt := now })
          match updOpt with
          | none => (.conflict (currentTicket s1 id), s1)
          | some updated =>
            let s2 := { s1 with assignments := s1.assignments ++
              [{ loanRequestId := id, assignedById := adminId, assigneeId := target,
                 comment := some (comment.getD
                   (if autoAssign then "Auto-assigned" else "Reassigned by admin")) }] }
            let s3 := createAuditLog s2 id adminId "reassigned"
              ((existing.assigneeId).map toString) (some (toString target)) comment
            (.success updated, s3)

/-- bulkReassignLoanRequests (adminLoanRequestController.ts lines 177-220).
The batch update at lines 202-206 sets assignee and activity timestamps for
every listed, non-deleted ticket; it carries no version guard and does not
touch the version column. -/
def bulkReassignLoanRequests (s : LRState) (adminId now : Nat) (ids : List Nat)
    (assigneeId : Option Nat) (autoAssign : Bool) : AdminOpResult × LRState :=
  if ids.length < 1 ∨ ids.length > 100 then (.badRequest "Invalid ids", s)
  else if assigneeId = none ∧ autoAssign = false then
    (.badRequest "assigneeId or autoAssign required", s)
  else
    let targetOpt := if autoAssign then leastBusyFinance s else assigneeId
    match targetOpt with
    | none => (.badRequest "No active finance employees", s)
    | some target =>
      let hit := fun (t : Ticket) => decide (t.id ∈ ids ∧ t.deletedAt = none)
      let updatedIds := (s.tickets.filter hit).map (fun t => t.id)
      let s1 := { s with tickets := s.tickets.map (fun t =>
        if t.id ∈ ids ∧ t.deletedAt = none then
          { t with assigneeId := some target, lastActivityAt := now, updatedAt := now }
        else t) }
      let s2 := updatedIds.foldl (fun acc tid =>
        let acc1 := { acc with assignments := acc.assignments ++
          [{ loanRequestId := tid, assignedById := adminId, assigneeId := target,
             comment := some "Bulk reassigned" }] }
        createAuditLog acc1 tid adminId "bulk_reassigned" none (some (toString target)) none)
        s1
      (.bulkSuccess updatedIds.length, s2)

/-- bulkEscalateLoanRequests (adminLoanRequestController.ts lines 252-274).
The batch update at lines 257-261 sets the escalation fields for every
listed, non-deleted ticket; it carries no version guard and does not touch
the version column. -/
def bulkEscalateLoanRequests (s : LRState) (adminId now : Nat) (ids : List Nat)
    (reason : String) : AdminOpResult × LRState :=
  if ids.length < 1 ∨ ids.length > 100 ∨ reason.length < 10 ∨ reason.length > 500 then
    (.badRequest "Invalid input", s)
  else
    let hit := fun (t : Ticket) => decide (t.id ∈ ids ∧ t.deletedAt = none)
    let updatedIds := (s.tickets.filter hit).map (fun t => t.id)
    let s1 := { s with tickets := s.tickets.map (fun t =>
      if t.id ∈ ids ∧ t.deletedAt = none then
        { t with isEscalated := true, escalationReason := some reason,
                 priority := "high", lastActivityAt := now, updatedAt := now }
      else t) }
    let s2 := updatedIds.foldl (fun acc tid =>
      createAuditLog acc tid adminId "bulk_escalated" none (some "high") (some reason)) s1
    (.bulkSuccess updatedIds.length, s2)

/-! ## Pending-change engine

Embeds the property pending-change controllers: submitPendingChange,
createProperty, withdrawPendingChange, updateDraft, submitDraft,
discardDraft (employee side) and approvePendingChange, rejectPendingChange,
requestChanges (src/controllers/adminPendingChangesController.ts).  Only the
property branch is modelled; the banner branch of the admin controller is
structurally identical.
-/

/-- A JSON value inside a proposed payload.  Strings and numbers are the
values the claims inspect (title display, price normalisation); every other
JSON shape is collapsed into one constructor. -/
inductive PVal
  | str (s : String)
  | num (n : Int)
  | nullv
  | other
deriving DecidableEq, Repr

/-- A JSON object payload as an association list of field name / value. -/
abbrev Payload := List (String × PVal)

/-- A row of the properties table (models/property.ts): the JSON-ish
updatable columns are collapsed into one field map. -/
structure Property where
  id : Nat
  deleted : Bool
  fields : Payload
  assignedEmployeeId : Option Nat
  createdByEmployeeId : Option Nat
  updatedAt : Nat
deriving DecidableEq, Repr

/-- A row of the property_pending_changes table. -/
structure PendingChange where
  id : Nat
  propertyId : Option Nat
  proposerId : Nat
  proposedPayload : Payload
  diffSummary : Option Payload
  status : String
  reason : Option String
  isDraft : Bool
  createdAt : Nat
  reviewedAt : Option Nat
  reviewedByAdminId : Option Nat
deriving DecidableEq, Repr

/-- A row of the uploads table (models/upload.ts). -/
structure Upload where
  id : Nat
  ownerId : Nat
  status : String
  referencedByChangeId : Option Nat
deriving DecidableEq, Repr

/-- A row of the property_pending_changes_idempotency table.  The UUID key
is modelled as a Nat. -/
structure IdemRecord where
  idempotencyKey : Nat
  changeId : Nat
  status : String
deriving DecidableEq, Repr

/-- The store the pending-change controllers touch.  New uuid primary keys
are modelled by the two counters; rows always receive a fresh id. -/
structure PCState where
  properties : List Property
  changes : List PendingChange
  uploads : List Upload
  ledger : List IdemRecord
  assignments : List (Nat × Nat)
  nextChangeId : Nat
  nextPropertyId : Nat
deriving DecidableEq, Repr

/-- ALLOWED_EMPLOYEE_FIELDS (employee property controller lines 544-547). -/
def ALLOWED_EMPLOYEE_FIELDS : List String :=
  ["title", "location", "price", "type", "description", "images", "gallery",
   "features", "amenities", "categories", "brochureUrl", "map", "website"]

/-- JavaScript `payload?.title || 'this property'`: the title string is used
when truthy, a numeric title is rendered into the template string, every
falsy or non-primitive value falls back to the default. -/
def displayTitle (p : Payload) : String :=
  match p.find? (fun kv => decide (kv.1 = "title")) with
  | some (_, .str s) => if s = "" then "this property" else s
  | some (_, .num n) => toString n
  | _ => "this property"

/-- Object-spread update of one key (later spread wins). -/
def setField (fs : Payload) (k : String) (v : PVal) : Payload :=
  if fs.any (fun kv => decide (kv.1 = k)) then
    fs.map (fun kv => if kv.1 = k then (k, v) else kv)
  else fs ++ [(k, v)]

/-- JavaScript `{ ...old, ...p }`: every entry of p overrides or extends the
old object. -/
def mergePayload (fs : Payload) (p : Payload) : Payload :=
  p.foldl (fun acc kv => setField acc kv.1 kv.2) fs

/-- The price normalisation in approvePendingChange lines 212-214: a null or
empty-string price becomes null, any other price goes through toString. -/
def normalizePrice (p : Payload) : Payload :=
  p.map (fun kv => if kv.1 = "price" then
    (kv.1, match kv.2 with
      | .nullv => .nullv
      | .str "" => .nullv
      | .str s => .str s
      | .num n => .str (toString n)
      | .other => .other)
    else kv)

/-- Data of one submitPendingChange request after zod parsing
(pendingChangeSchema).  uploadedAssetIds lists the uploadId entries of
uploadedAssets. -/
structure SubmitData where
  proposedPayload : Payload
  diffSummary : Option Payload
  uploadedAssetIds : List Nat
  idempotencyKey : Option Nat
  isDraft : Bool
deriving DecidableEq, Repr

/-- Result of submitPendingChange. -/
inductive SubmitResult
  | idempotentReplay (changeId : Nat) (status : String)
  | notAssigned
  | invalidFields (fields : List String)
  | invalidUploads
  | pendingConflict (existingChangeId : Nat) (existingChangeTitle : String)
  | created (changeId : Nat) (status : String)
  | serverError
deriving DecidableEq, Repr

/-- The live-pending conflict predicate used both by the submission checks
and by the one-live-pending invariant: status 'pending' and isDraft false
for the given (property, proposer) pair. -/
def isLivePendingFor (target proposer : Nat) (c : PendingChange) : Bool :=
  decide (c.propertyId = some target ∧ c.proposerId = proposer ∧
    c.status = "pending" ∧ c.isDraft = false)

/-- submitPendingChange (employee property controller lines 549-676):
idempotency-ledger replay, assignment and property checks, field allow-list,
upload-ownership validation, the live-pending conflict check, then the
insert plus upload marking plus ledger record. -/
def submitPendingChange (s : PCState) (propertyId employeeId now : Nat)
    (data : SubmitData) : SubmitResult × PCState :=
  let idemHit := data.idempotencyKey.bind (fun k =>
    s.ledger.find? (fun r => decide (r.idempotencyKey = k)))
  match idemHit with
  | some r =>
    match s.changes.find? (fun c => decide (c.id = r.changeId)) with
    | some c => (.idempotentReplay c.id c.status, s)
    | none => (.serverError, s)
  | none =>
    if ¬ (propertyId, employeeId) ∈ s.assignments then (.notAssigned, s)
    else
      match s.properties.find? (fun p => decide (p.id = propertyId ∧ p.deleted = false)) with
      | none => (.notAssigned, s)
      | some _ =>
        let invalidFields := (data.proposedPayload.map (fun kv => kv.1)).filter
          (fun f => decide (f ∉ ALLOWED_EMPLOYEE_FIELDS))
        if invalidFields ≠ [] then (.invalidFields invalidFields, s)
        else
          let uploadsOk :=
            data.uploadedAssetIds = [] ∨
            (s.uploads.filter (fun u => decide (u.id ∈ data.uploadedAssetIds ∧
              u.ownerId = employeeId))).length = data.uploadedAssetIds.length
          if ¬ uploadsOk then (.invalidUploads, s)
          else
            let conflict :=
              if data.isDraft then none
              else s.changes.find? (isLivePendingFor propertyId employeeId)
            match conflict with
            | some ex => (.pendingConflict ex.id (displayTitle ex.proposedPayload), s)
            | none =>
              let cid := s.nextChangeId
              let newChange : PendingChange :=
                { id := cid, propertyId := some propertyId, proposerId := employeeId,
                  proposedPayload := data.proposedPayload,
                  diffSummary := data.diffSummary,
                  status := if data.isDraft then "draft" else "pending",
                  reason := none, isDraft := data.isDraft, createdAt := now,
                  reviewedAt := none, reviewedByAdminId := none }
              let uploads1 :=
                if data.uploadedAssetIds = [] then s.uploads
                else s.uploads.map (fun u =>
                  if u.id ∈ data.uploadedAssetIds then
                    { u with status := "referenced", referencedByChangeId := some cid }
                  else u)
              let ledger1 :=
                match data.idempotencyKey with
                | some k => s.ledger ++ [{ idempotencyKey := k, changeId := cid,
                                            status := "completed" }]
                | none => s.ledger
              (.created cid newChange.status,
               { s with changes := s.changes ++ [newChange], uploads := uploads1,
                        ledger := ledger1, nextChangeId := cid + 1 })

/-- createProperty (employee property controller lines 695-720): a creation
change with a null target; the payload has been validated by
createPropertySchema. -/
def createProperty (s : PCState) (employeeId now : Nat) (payload : Payload)
    (isDraft : Bool) : SubmitResult × PCState :=
  let cid := s.nextChangeId
  let newChange : PendingChange :=
    { id := cid, propertyId := none, proposerId := employeeId,
      proposedPayload := payload, diffSummary := none,
      status := if isDraft then "draft" else "pending",
      reason := none, isDraft := isDraft, createdAt := now,
      reviewedAt := none, reviewedByAdminId := none }
  (.created cid newChange.status,
   { s with changes := s.changes ++ [newChange], nextChangeId := cid + 1 })

/-- Result of withdraw / updateDraft / submitDraft / discardDraft / reject /
requestChanges. -/
inductive ChangeOpResult
  | ok
  | notFound
  | badRequest
  | conflict (existingChangeId : Nat) (existingChangeTitle : String)
deriving DecidableEq, Repr

/-- withdrawPendingChange (employee property controller lines 722-762): the
lookup filters on id and proposer only — no status restriction — then either
flips the change to a draft in place or deletes the row. -/
def withdrawPendingChange (s : PCState) (changeId employeeId : Nat)
    (moveToDraft : Bool) : ChangeOpResult × PCState :=
  match s.changes.find? (fun c => decide (c.id = changeId ∧ c.proposerId = employeeId)) with
  | none => (.notFound, s)
  | some _ =>
    if moveToDraft then
      (.ok, { s with changes := s.changes.map (fun c =>
        if c.id = changeId then { c with isDraft := true, status := "draft" } else c) })
    else
      (.ok, { s with changes := s.changes.filter (fun c => decide (c.id ≠ changeId)) })

/-- updateDraft (employee property controller lines 764-797): payload
replacement for a change that the proposer owns and that is a draft or in
needs_revision. -/
def updateDraft (s : PCState) (changeId employeeId : Nat) (payload : Payload) :
    ChangeOpResult × PCState :=
  match s.changes.find? (fun c => decide (c.id = changeId ∧ c.proposerId = employeeId ∧
      (c.isDraft = true ∨ c.status = "needs_revision"))) with
  | none => (.notFound, s)
  | some _ =>
    (.ok, { s with changes := s.changes.map (fun c =>
      if c.id = changeId then { c with proposedPayload := payload } else c) })

/-- submitDraft (employee property controller lines 799-851): the found
draft/needs-revision change is flipped to pending after the live-pending
conflict check (which excludes the change itself and is only performed for
changes with a target property). -/
def submitDraft (s : PCState) (changeId employeeId : Nat) :
    ChangeOpResult × PCState :=
  match s.changes.find? (fun c => decide (c.id = changeId ∧ c.proposerId = employeeId ∧
      (c.isDraft = true ∨ c.status = "needs_revision"))) with
  | none => (.notFound, s)
  | some change =>
    let conflict :=
      match change.propertyId with
      | some pid => s.changes.find? (fun c =>
          isLivePendingFor pid employeeId c && decide (c.id ≠ changeId))
      | none => none
    match conflict with
    | some ex => (.conflict ex.id (displayTitle ex.proposedPayload), s)
    | none =>
      (.ok, { s with changes := s.changes.map (fun c =>
        if c.id = changeId then { c with isDraft := false, status := "pending" } else c) })

/-- discardDraft (employee property controller lines 853-870): deletes the
row when id, proposer and isDraft all match; always reports success. -/
def discardDraft (s : PCState) (changeId employeeId : Nat) :
    ChangeOpResult × PCState :=
  (.ok, { s with changes := s.changes.filter (fun c =>
    decide (¬ (c.id = changeId ∧ c.proposerId = employeeId ∧ c.isDraft = true))) })

/-- Result of approvePendingChange. -/
inductive ApproveResult
  | alreadyProcessed
  | ok (property : Property)
  | notFound
  | serverError
deriving DecidableEq, Repr

/-- approvePendingChange, property branch (adminPendingChangesController.ts
lines 185-254).  failFinalize injects a failure between the canonical write
and the pending-change status update — the window the rollback at lines
244-253 is meant to compensate.  The rollback runs only when a row was
returned by the write, the change has a non-null target and a pre-write
snapshot was captured; an insert performed for a creation change is never
compensated.  The payload is assumed not to overwrite the id column. -/
def approvePendingChange (s : PCState) (changeId adminId now : Nat)
    (applyAs : String) (mergedPayload : Option Payload) (failFinalize : Bool) :
    ApproveResult × PCState :=
  match s.changes.find? (fun c => decide (c.id = changeId)) with
  | none => (.notFound, s)
  | some pc =>
    if pc.status ≠ "pending" ∧ pc.status ≠ "needs_revision" then
      (.alreadyProcessed, s)
    else
      let payload :=
        if applyAs = "mergedPayload" then
          match mergedPayload with
          | some m => m
          | none => pc.proposedPayload
        else pc.proposedPayload
      match pc.propertyId with
      | some pid =>
        let oldProperty := s.properties.find? (fun p => decide (p.id = pid))
        let upd := fun (p : Property) =>
          { p with fields := mergePayload p.fields (normalizePrice payload),
                   updatedAt := now }
        let written := oldProperty.map upd
        let s1 := { s with properties := s.properties.map (fun p =>
          if p.id = pid then upd p else p) }
        if failFinalize then
          match written, oldProperty with
          | some _, some oldp =>
            (.serverError, { s1 with properties := s1.properties.map (fun p =>
              if p.id = pid then oldp else p) })
          | _, _ => (.serverError, s1)
        else
          let s2 := { s1 with changes := s1.changes.map (fun c =>
            if c.id = changeId then
              { c with status := "approved", reviewedAt := some now,
                       reviewedByAdminId := some adminId }
            else c) }
          match written with
          | some p => (.ok p, s2)
          | none => (.serverError, s2)
      | none =>
        let newProp : Property :=
          { id := s.nextPropertyId, deleted := false, fields := payload,
            assignedEmployeeId := some pc.proposerId,
            createdByEmployeeId := some pc.proposerId, updatedAt := now }
        let s1 := { s with properties := s.properties ++ [newProp],
                           nextPropertyId := s.nextPropertyId + 1 }
        if failFinalize then (.serverError, s1)
        else
          let s2 := { s1 with changes := s1.changes.map (fun c =>
            if c.id = changeId then
              { c with status := "approved", reviewedAt := some now,
                       reviewedByAdminId := some adminId }
            else c) }
          (.ok newProp, s2)

/-- rejectPendingChange, property branch (adminPendingChangesController.ts
lines 326-374): a non-empty reason is required by zod; the update filters on
the id only — the current status is not checked. -/
def rejectPendingChange (s : PCState) (changeId adminId now : Nat)
    (reason : String) : ChangeOpResult × PCState :=
  if reason = "" then (.badRequest, s)
  else
    match s.changes.find? (fun c => decide (c.id = changeId)) with
    | none => (.notFound, s)
    | some _ =>
      (.ok, { s with changes := s.changes.map (fun c =>
        if c.id = changeId then
          { c with status := "rejected", reason := some reason,
                   reviewedAt := some now, reviewedByAdminId := some adminId }
        else c) })

/-- requestChanges, property branch (adminPendingChangesController.ts lines
380-438): non-empty comments required; the update filters on the id only —
the current status is not checked. -/
def requestChanges (s : PCState) (changeId adminId now : Nat)
    (comments : String) : ChangeOpResult × PCState :=
  if comments = "" then (.badRequest, s)
  else
    match s.changes.find? (fun c => decide (c.id = changeId)) with
    | none => (.notFound, s)
    | some _ =>
      (.ok, { s with changes := s.changes.map (fun c =>
        if c.id = changeId then
          { c with status := "needs_revision", reason := some comments,
                   reviewedAt := some now, reviewedByAdminId := some adminId }
        else c) })

/-- One pending-change operation, for reasoning about operation sequences. -/
inductive PCOp
  | submit (propertyId employeeId now : Nat) (data : SubmitData)
  | create (employeeId now : Nat) (payload : Payload) (isDraft : Bool)
  | upDraft (changeId employeeId : Nat) (payload : Payload)
  | subDraft (changeId employeeId : Nat)
  | withdraw (changeId employeeId : Nat) (moveToDraft : Bool)
  | discard (changeId employeeId : Nat)
  | approve (changeId adminId now : Nat) (applyAs : String)
      (mergedPayload : Option Payload) (failFinalize : Bool)
  | reject (changeId adminId now : Nat) (reason : String)
  | reqRevision (changeId adminId now : Nat) (comments : String)
deriving Repr

/-- State reached after one operation. -/
def applyPCOp (s : PCState) : PCOp → PCState
  | .submit pid eid now data => (submitPendingChange s pid eid now data).2
  | .create eid now payload isDraft => (createProperty s eid now payload isDraft).2
  | .upDraft cid eid payload => (updateDraft s cid eid payload).2
  | .subDraft cid eid => (submitDraft s cid eid).2
  | .withdraw cid eid mtd => (withdrawPendingChange s cid eid mtd).2
  | .discard cid eid => (discardDraft s cid eid).2
  | .approve cid aid now applyAs mp ff => (approvePendingChange s cid aid now applyAs mp ff).2
  | .reject cid aid now reason => (rejectPendingChange s cid aid now reason).2
  | .reqRevision cid aid now comments => (requestChanges s cid aid now comments).2

/-- State reached after a sequence of operations. -/
def runPCOps (s : PCState) (ops : List PCOp) : PCState :=
  ops.foldl applyPCOp s

/-- Number of live pending changes (status 'pending', isDraft false) for a
given (target property, proposer) pair. -/
def livePendingCount (s : PCState) (target proposer : Nat) : Nat :=
  s.changes.countP (isLivePendingFor target proposer)

/-- The empty store. -/
def PCState.empty : PCState :=
  { properties := [], changes := [], uploads := [], ledger := [],
    assignments := [], nextChangeId := 0, nextPropertyId := 0 }

/-! ## Customer loan-request creation and its in-memory rate limit

Embeds checkRateLimit and createLoanRequest from the customer loan-request
controller (src/unnamed/part_009 lines 482-567).
-/

/-- One entry of the in-memory rateLimitMap. -/
structure RateEntry where
  count : Nat
  resetAt : Nat
deriving DecidableEq, Repr

/-- Map.set semantics on the assoc-list model of rateLimitMap: replace the
entry for the key, or append a new one. -/
def rateMapSet (m : List (Nat × RateEntry)) (k : Nat) (v : RateEntry) :
    List (Nat × RateEntry) :=
  if m.any (fun kv => decide (kv.1 = k)) then
    m.map (fun kv => if kv.1 = k then (k, v) else kv)
  else m ++ [(k, v)]

/-- checkRateLimit (part_009 lines 484-499): a missing or expired entry is
replaced by a fresh window of count 1; a count of 15 or more inside the
window rejects the call; otherwise the count is incremented.  Timestamps are
milliseconds, the window is 24 * 60 * 60 * 1000 ms from the first accepted
call of the window. -/
def checkRateLimit (m : List (Nat × RateEntry)) (userId now : Nat) :
    Bool × List (Nat × RateEntry) :=
  match m.find? (fun kv => decide (kv.1 = userId)) with
  | none => (true, rateMapSet m userId { count := 1, resetAt := now + 24 * 60 * 60 * 1000 })
  | some (_, e) =>
    if now > e.resetAt then
      (true, rateMapSet m userId { count := 1, resetAt := now + 24 * 60 * 60 * 1000 })
    else if e.count ≥ 15 then (false, m)
    else (true, rateMapSet m userId { count := e.count + 1, resetAt := e.resetAt })

/-- A created loan_requests row, restricted to identity. -/
structure CreatedLoan where
  id : Nat
  userId : Nat
  status : String
deriving DecidableEq, Repr

/-- State touched by createLoanRequest: the module-level rateLimitMap and
the loan_requests table. -/
structure LoanApiState where
  rateLimit : List (Nat × RateEntry)
  loanRequests : List CreatedLoan
  nextLoanId : Nat
deriving DecidableEq, Repr

/-- Result of createLoanRequest. -/
inductive CreateLRResult
  | rateLimited (message : String)
  | validationError
  | userNotFound
  | created (id : Nat) (status : String)
deriving DecidableEq, Repr

/-- The 429 message returned by createLoanRequest (part_009 line 506).  It
claims a maximum of 5 per day although checkRateLimit enforces 15. -/
def rateLimitMessage : String :=
  "Rate limit exceeded. Maximum 5 loan requests per day."

/-- createLoanRequest (part_009 lines 501-567), with the zod body validation
outcome and the user lookup outcome abstracted into booleans: the rate-limit
gate runs before both, so a rate-limited call returns 429 untouched by
either, and no row is inserted. -/
def createLoanRequest (st : LoanApiState) (userId now : Nat)
    (bodyValid userFound : Bool) : CreateLRResult × LoanApiState :=
  let (allowed, m1) := checkRateLimit st.rateLimit userId now
  let st1 := { st with rateLimit := m1 }
  if ¬ allowed then (.rateLimited rateLimitMessage, st1)
  else if ¬ bodyValid then (.validationError, st1)
  else if ¬ userFound then (.userNotFound, st1)
  else
    let row : CreatedLoan := { id := st1.nextLoanId, userId := userId, status := "received" }
    (.created st1.nextLoanId "received",
     { st1 with loanRequests := st1.loanRequests ++ [row],
                nextLoanId := st1.nextLoanId + 1 })

end KrkFd


namespace KrkFd

/-! ## Generic list lemmas used by the proofs -/

/-- find? returns the designated element when it is the only one matching. -/
theorem find?_eq_some_of_unique {α} {p : α → Bool} {l : List α} {t : α}
    (ht : t ∈ l) (hp : p t = true) (hU : ∀ x ∈ l, p x = true → x = t) :
    l.find? p = some t := by
  induction l with
  | nil => cases ht
  | cons a l ih =>
    by_cases ha : p a = true
    · have : a = t := hU a (List.mem_cons_self a l) ha
      subst this
      simp [List.find?, ha]
    · have hat : a ≠ t := by
        intro h
        exact ha (h ▸ hp)
      have ht' : t ∈ l := by
        cases ht with
        | head => exact absurd rfl hat
        | tail _ h => exact h
      have hU' : ∀ x ∈ l, p x = true → x = t := fun x hx hpx =>
        hU x (List.mem_cons_of_mem a hx) hpx
      simp [List.find?, ha, ih ht' hU']

/-- Counting over a mapped list counts the composed predicate. -/
theorem countP_map_list {α β} (l : List α) (g : α → β) (p : β → Bool) :
    (l.map g).countP p = l.countP (fun x => p (g x)) := by
  induction l with
  | nil => simp
  | cons a l ih => simp [List.countP_cons, ih]

/-- A pointwise implication between predicates bounds the counts. -/
theorem countP_mono_of_imp {α} {l : List α} {p q : α → Bool}
    (h : ∀ x ∈ l, p x = true → q x = true) : l.countP p ≤ l.countP q := by
  induction l with
  | nil => simp
  | cons a l ih =>
    have ih' := ih (fun x hx => h x (List.mem_cons_of_mem a hx))
    by_cases hpa : p a = true
    · have hqa := h a (List.mem_cons_self a l) hpa
      simp [List.countP_cons, hpa, hqa]
      omega
    · by_cases hqa : q a = true <;> simp [List.countP_cons, hpa, hqa] <;> omega

/-- A pointwise agreement between predicates equates the counts. -/
theorem countP_congr_of_eq {α} {l : List α} {p q : α → Bool}
    (h : ∀ x ∈ l, p x = q x) : l.countP p = l.countP q := by
  induction l with
  | nil => simp
  | cons a l ih =>
    have ih' := ih (fun x hx => h x (List.mem_cons_of_mem a hx))
    have ha := h a (List.mem_cons_self a l)
    simp [List.countP_cons, ha, ih']

/-- A pointwise map can only lose matches when the image matching implies the
source matched. -/
theorem countP_map_le_of_imp {α} {l : List α} {g : α → α} {p : α → Bool}
    (h : ∀ x ∈ l, p (g x) = true → p x = true) :
    (l.map g).countP p ≤ l.countP p := by
  rw [countP_map_list]
  exact countP_mono_of_imp h

/-- A pointwise map preserves the count when matching is preserved. -/
theorem countP_map_eq_of_iff {α} {l : List α} {g : α → α} {p : α → Bool}
    (h : ∀ x ∈ l, p (g x) = p x) :
    (l.map g).countP p = l.countP p := by
  rw [countP_map_list]
  exact countP_congr_of_eq h

/-- Splitting a count along a pointwise disjunction. -/
theorem countP_le_add_of_imp {α} {l : List α} {p q r : α → Bool}
    (h : ∀ x ∈ l, p x = true → q x = true ∨ r x = true) :
    l.countP p ≤ l.countP q + l.countP r := by
  induction l with
  | nil => simp
  | cons a l ih =>
    have ih' := ih (fun x hx => h x (List.mem_cons_of_mem a hx))
    by_cases hpa : p a = true
    · rcases h a (List.mem_cons_self a l) hpa with hq | hr
      · simp [List.countP_cons, hpa, hq]
        omega
      · simp [List.countP_cons, hpa, hr]
        omega
    · simp [List.countP_cons, hpa]
      by_cases hq : q a = true <;> by_cases hr : r a = true <;> simp [hq, hr] <;> omega

/-- In a list whose keys are pairwise distinct, at most one element carries a
given key. -/
theorem countP_key_le_one {α} {l : List α} {f : α → Nat} {k : Nat}
    (h : (l.map f).Nodup) : l.countP (fun x => decide (f x = k)) ≤ 1 := by
  induction l with
  | nil => simp
  | cons a l ih =>
    simp only [List.map_cons, List.nodup_cons] at h
    by_cases ha : f a = k
    · have : l.countP (fun x => decide (f x = k)) = 0 := by
        apply List.countP_eq_zero.2
        intro x hx
        simp only [decide_eq_true_eq]
        intro hfx
        have hm := List.mem_map_of_mem f hx
        rw [hfx, ← ha] at hm
        exact h.1 hm
      simp [List.countP_cons, ha, this]
    · simp [List.countP_cons, ha, ih h.2]

/-- Filtering never increases a count. -/
theorem countP_filter_le {α} (l : List α) (p q : α → Bool) :
    (l.filter q).countP p ≤ l.countP p := by
  induction l with
  | nil => simp
  | cons a l ih =>
    by_cases hq : q a = true
    · simp only [List.filter_cons, hq, if_pos, List.countP_cons]
      by_cases hp : p a = true <;> simp [hp] <;> omega
    · simp only [List.filter_cons, hq]
      simp only [Bool.false_eq_true, if_false, List.countP_cons]
      by_cases hp : p a = true <;> simp [hp] <;> omega

end KrkFd

namespace KrkFd

/-! ## Concrete inputs and counterexamples for the corrected claims -/

/-- A creation pending change (null target) in status pending. -/
def c1Change : PendingChange :=
  { id := 0, propertyId := none, proposerId := 7,
    proposedPayload := [("title", .str "New")], diffSummary := none,
    status := "pending", reason := none, isDraft := false, createdAt := 0,
    reviewedAt := none, reviewedByAdminId := none }

/-- A store holding only the creation change of c1Change and no property. -/
def c1State : PCState :=
  { properties := [], changes := [c1Change], uploads := [], ledger := [],
    assignments := [], nextChangeId := 1, nextPropertyId := 0 }

/-- C1 counterexample: approving the creation change with a failure injected
between the canonical insert and the status update leaves the inserted
property row in the store — the pre-write snapshot (no row at all) is not
restored, contradicting the claim that no partially-applied canonical write,
including an insert for a creation change, survives a failed finalize.  (The
change does stay out of status approved and the error is re-raised as the
500 result.) -/
theorem C1_counterexample :
    (approvePendingChange c1State 0 9 5 "proposed" none true).1 = .serverError ∧
    (approvePendingChange c1State 0 9 5 "proposed" none true).2.properties ≠
      c1State.properties ∧
    (approvePendingChange c1State 0 9 5 "proposed" none true).2.properties.length = 1 ∧
    ((approvePendingChange c1State 0 9 5 "proposed" none true).2.changes.map
      (fun c => c.status)) = ["pending"] := by
  decide

/-- A closed ticket at version 3, not deleted. -/
def c5Ticket : Ticket :=
  { id := 1, status := .closed, assigneeId := none, version := 3,
    priority := "normal", isEscalated := false, escalationReason := none,
    lastActivityAt := 0, updatedAt := 0, deletedAt := none }

/-- A store holding only c5Ticket. -/
def c5State : LRState :=
  { tickets := [c5Ticket], users := [], assignments := [], auditLogs := [] }

/-- The row c5Ticket as the admin call rewrites it. -/
def c5TicketAfter : Ticket :=
  { c5Ticket with status := .received, version := 4, lastActivityAt := 5, updatedAt := 5 }

/-- C5 counterexample: closed → received is not in the adjacency table, yet
the admin changeStatus succeeds and mutates the row — the claim that the
call fails with a validation-class error whether issued by a finance
employee or an admin is false for the admin variant. -/
theorem C5_counterexample :
    (changeAdminLoanRequestStatus c5State 1 9 5 .received none).1 =
      .success c5TicketAfter ∧
    ((changeAdminLoanRequestStatus c5State 1 9 5 .received none).2.tickets.map
      (fun t => t.status)) = [.received] := by
  decide

/-- A received, unescalated ticket at version 3. -/
def c6Ticket : Ticket :=
  { id := 1, status := .received, assigneeId := none, version := 3,
    priority := "normal", isEscalated := false, escalationReason := none,
    lastActivityAt := 0, updatedAt := 0, deletedAt := none }

/-- A store holding only c6Ticket. -/
def c6State : LRState :=
  { tickets := [c6Ticket], users := [], assignments := [], auditLogs := [] }

/-- C6 counterexample: bulkEscalate flips the escalation flag of the ticket
but leaves its version at 3 — the claim that every mutation of status,
assignee or escalation, including the bulk variants, strictly increases the
stored version is false. -/
theorem C6_counterexample :
    (bulkEscalateLoanRequests c6State 9 5 [1] "stuck for a week").1 =
      .bulkSuccess 1 ∧
    ((bulkEscalateLoanRequests c6State 9 5 [1] "stuck for a week").2.tickets.map
      (fun t => (t.isEscalated, t.version))) = [(true, 3)] := by
  decide

/-- An unassigned ticket in status contacted. -/
def c7Ticket : Ticket :=
  { id := 1, status := .contacted, assigneeId := none, version := 3,
    priority := "normal", isEscalated := false, escalationReason := none,
    lastActivityAt := 0, updatedAt := 0, deletedAt := none }

/-- A store holding only c7Ticket. -/
def c7State : LRState :=
  { tickets := [c7Ticket], users := [], assignments := [], auditLogs := [] }

/-- The row c7Ticket as a successful take rewrites it. -/
def c7TicketAfter : Ticket :=
  { c7Ticket with assigneeId := some 7, status := .under_review, version := 4,
                  lastActivityAt := 5, updatedAt := 5 }

/-- C7 counterexample: taking an unassigned ticket whose status is contacted
sets the status to under_review — the claim that a ticket in any status
other than received keeps its status on take is false. -/
theorem C7_counterexample :
    ((takeLoanRequest c7State 1 7 5).2.tickets.map (fun t => t.status)) =
      [.under_review] ∧
    (takeLoanRequest c7State 1 7 5).1 = .success c7TicketAfter := by
  decide

/-- A pending change already in the terminal status approved. -/
def c8Change : PendingChange :=
  { id := 0, propertyId := some 3, proposerId := 7,
    proposedPayload := [("title", .str "X")], diffSummary := none,
    status := "approved", reason := none, isDraft := false, createdAt := 0,
    reviewedAt := some 1, reviewedByAdminId := some 9 }

/-- A store holding only c8Change. -/
def c8State : PCState :=
  { properties := [], changes := [c8Change], uploads := [], ledger := [],
    assignments := [], nextChangeId := 1, nextPropertyId := 0 }

/-- C8 counterexample: reject moves a change whose status is approved into
rejected — approved is not terminal, contradicting the claim that no
operation moves a change out of approved or rejected. -/
theorem C8_counterexample :
    (rejectPendingChange c8State 0 9 5 "late rejection").1 = .ok ∧
    ((rejectPendingChange c8State 0 9 5 "late rejection").2.changes.map
      (fun c => c.status)) = ["rejected"] := by
  decide

/-- A property assigned to employee 7. -/
def c9Property : Property :=
  { id := 3, deleted := false, fields := [], assignedEmployeeId := some 7,
    createdByEmployeeId := some 7, updatedAt := 0 }

/-- An upload owned by employee 7, confirmed but not yet referenced. -/
def c9Upload : Upload :=
  { id := 0, ownerId := 7, status := "uploaded", referencedByChangeId := none }

/-- An upload owned by employee 7, a property 3 assigned to employee 7. -/
def c9State : PCState :=
  { properties := [c9Property], changes := [], uploads := [c9Upload],
    ledger := [], assignments := [(3, 7)], nextChangeId := 0, nextPropertyId := 4 }

/-- First draft submission referencing upload 0. -/
def c9Data1 : SubmitData :=
  { proposedPayload := [("title", .str "A")], diffSummary := none,
    uploadedAssetIds := [0], idempotencyKey := none, isDraft := true }

/-- Second draft submission referencing the same upload 0. -/
def c9Data2 : SubmitData :=
  { proposedPayload := [("title", .str "B")], diffSummary := none,
    uploadedAssetIds := [0], idempotencyKey := none, isDraft := true }

/-- C9 counterexample: two successive submissions both listing upload 0
succeed and create two distinct pending changes; the upload's back-reference
ends at the second change while the first change still exists — the claim
that each upload handle is referenced by at most one PendingChange over any
sequence of submissions is false (the ownership validation never checks
whether the upload is already referenced). -/
theorem C9_counterexample :
    (submitPendingChange c9State 3 7 1 c9Data1).1 = .created 0 "draft" ∧
    (submitPendingChange (submitPendingChange c9State 3 7 1 c9Data1).2 3 7 2 c9Data2).1 =
      .created 1 "draft" ∧
    ((submitPendingChange (submitPendingChange c9State 3 7 1 c9Data1).2 3 7 2
        c9Data2).2.uploads.map (fun u => u.referencedByChangeId)) = [some 1] ∧
    ((submitPendingChange (submitPendingChange c9State 3 7 1 c9Data1).2 3 7 2
        c9Data2).2.changes.map (fun c => c.id)) = [0, 1] := by
  refine ⟨rfl, rfl, rfl, rfl⟩

/-! ## C10: the in-memory rate limit of createLoanRequest -/

/-- The i-th state of an uninterrupted sequence of createLoanRequest calls
by one user: call i happens at time tau i with body-validation outcome bv i
and user-lookup outcome uf i. -/
def createLoanRequestCalls (st : LoanApiState) (uid : Nat) (tau : Nat → Nat)
    (bv uf : Nat → Bool) : Nat → LoanApiState
  | 0 => st
  | i + 1 =>
    (createLoanRequest (createLoanRequestCalls st uid tau bv uf i) uid
      (tau (i + 1)) (bv (i + 1)) (uf (i + 1))).2

theorem find?_append_none {α} {p : α → Bool} {l1 l2 : List α}
    (h : l1.find? p = none) : (l1 ++ l2).find? p = l2.find? p := by
  induction l1 with
  | nil => simp
  | cons a l ih =>
    simp only [List.find?] at h ⊢
    cases hpa : p a with
    | true => rw [hpa] at h; cases h
    | false =>
      rw [hpa] at h
      simpa using ih h

theorem map_if_key_eq {l : List (Nat × RateEntry)} {k : Nat} {v : RateEntry}
    (h : ∀ kv ∈ l, kv.1 ≠ k) :
    l.map (fun kv => if kv.1 = k then (k, v) else kv) = l := by
  induction l with
  | nil => simp
  | cons a l ih =>
    have ha := h a (List.mem_cons_self a l)
    have ih' := ih (fun kv hkv => h kv (List.mem_cons_of_mem a hkv))
    simp [ha, ih']

theorem rateMapSet_append_of_absent {l : List (Nat × RateEntry)} {k : Nat}
    {v w : RateEntry} (h : ∀ kv ∈ l, kv.1 ≠ k) :
    rateMapSet (l ++ [(k, w)]) k v = l ++ [(k, v)] := by
  unfold rateMapSet
  have hany : (l ++ [(k, w)]).any (fun kv => decide (kv.1 = k)) = true := by
    simp [List.any_append]
  rw [if_pos hany, List.map_append, map_if_key_eq h]
  simp

theorem rateMapSet_fresh {l : List (Nat × RateEntry)} {k : Nat} {v : RateEntry}
    (h : ∀ kv ∈ l, kv.1 ≠ k) :
    rateMapSet l k v = l ++ [(k, v)] := by
  unfold rateMapSet
  have hany : l.any (fun kv => decide (kv.1 = k)) = false := by
    simp only [List.any_eq_false]
    intro kv hkv
    simpa using h kv hkv
  rw [if_neg]
  simp [hany]

theorem checkRateLimit_first {l : List (Nat × RateEntry)} {uid now : Nat}
    (h : l.find? (fun kv => decide (kv.1 = uid)) = none) :
    checkRateLimit l uid now =
      (true, l ++ [(uid, { count := 1, resetAt := now + 24 * 60 * 60 * 1000 })]) := by
  have hk : ∀ kv ∈ l, kv.1 ≠ uid := by
    intro kv hkv
    have := List.find?_eq_none.1 h kv hkv
    simpa using this
  unfold checkRateLimit
  rw [h, rateMapSet_fresh hk]

theorem checkRateLimit_inc {l : List (Nat × RateEntry)} {uid now c r : Nat}
    (hk : ∀ kv ∈ l, kv.1 ≠ uid) (hnow : ¬ now > r) (hc : c < 15) :
    checkRateLimit (l ++ [(uid, { count := c, resetAt := r })]) uid now =
      (true, l ++ [(uid, { count := c + 1, resetAt := r })]) := by
  have hfind : l.find? (fun kv => decide (kv.1 = uid)) = none := by
    apply List.find?_eq_none.2
    intro kv hkv
    simpa using hk kv hkv
  unfold checkRateLimit
  rw [find?_append_none hfind]
  simp only [List.find?, decide_True]
  rw [if_neg hnow, if_neg (by omega), rateMapSet_append_of_absent hk]

theorem checkRateLimit_reject {l : List (Nat × RateEntry)} {uid now c r : Nat}
    (hk : ∀ kv ∈ l, kv.1 ≠ uid) (hnow : ¬ now > r) (hc : c ≥ 15) :
    checkRateLimit (l ++ [(uid, { count := c, resetAt := r })]) uid now =
      (false, l ++ [(uid, { count := c, resetAt := r })]) := by
  have hfind : l.find? (fun kv => decide (kv.1 = uid)) = none := by
    apply List.find?_eq_none.2
    intro kv hkv
    simpa using hk kv hkv
  unfold checkRateLimit
  rw [find?_append_none hfind]
  simp only [List.find?, decide_True]
  rw [if_neg hnow, if_pos (by omega)]

theorem createLoanRequest_rateLimit {st : LoanApiState} {uid now : Nat}
    {bv uf : Bool} {a : Bool} {M : List (Nat × RateEntry)}
    (h : checkRateLimit st.rateLimit uid now = (a, M)) :
    (createLoanRequest st uid now bv uf).2.rateLimit = M := by
  cases a <;> cases bv <;> cases uf <;> simp [createLoanRequest, h]

theorem createLoanRequest_not_rateLimited {st : LoanApiState} {uid now : Nat}
    {bv uf : Bool} {M : List (Nat × RateEntry)}
    (h : checkRateLimit st.rateLimit uid now = (true, M)) :
    ∀ m, (createLoanRequest st uid now bv uf).1 ≠ .rateLimited m := by
  intro m
  cases bv <;> cases uf <;> simp [createLoanRequest, h]

theorem createLoanRequest_rejected {st : LoanApiState} {uid now : Nat}
    {bv uf : Bool} {M : List (Nat × RateEntry)}
    (h : checkRateLimit st.rateLimit uid now = (false, M)) :
    (createLoanRequest st uid now bv uf).1 = .rateLimited rateLimitMessage ∧
    (createLoanRequest st uid now bv uf).2.loanRequests = st.loanRequests := by
  constructor <;> simp [createLoanRequest, h]

/-- C10: the per-user in-memory rate limit of createLoanRequest.  Starting
with no entry for the user, 15 calls inside a 24-hour window all pass the
rate gate (whatever their validation or user-lookup outcomes), and the 16th
call inside the window is rejected with the 429 path before validation and
before any insert — its result is rateLimited whatever the body-validation
outcome, and the loan_requests table is untouched by it.  The 429 message
nevertheless announces a maximum of 5 per day while the enforced threshold
is 15. -/
theorem C10_rate_limit (st : LoanApiState) (uid : Nat) (tau : Nat → Nat)
    (bv uf : Nat → Bool)
    (h0 : st.rateLimit.find? (fun kv => decide (kv.1 = uid)) = none)
    (hwin : ∀ i, i ≤ 16 → tau i ≤ tau 1 + 24 * 60 * 60 * 1000) :
    (∀ i, 1 ≤ i → i ≤ 15 → ∀ m,
      (createLoanRequest (createLoanRequestCalls st uid tau bv uf (i - 1)) uid
        (tau i) (bv i) (uf i)).1 ≠ .rateLimited m) ∧
    (createLoanRequest (createLoanRequestCalls st uid tau bv uf 15) uid
      (tau 16) (bv 16) (uf 16)).1 = .rateLimited rateLimitMessage ∧
    (createLoanRequest (createLoanRequestCalls st uid tau bv uf 15) uid
      (tau 16) (bv 16) (uf 16)).2.loanRequests =
      (createLoanRequestCalls st uid tau bv uf 15).loanRequests ∧
    rateLimitMessage = "Rate limit exceeded. Maximum 5 loan requests per day." := by
  have hk : ∀ kv ∈ st.rateLimit, kv.1 ≠ uid := by
    intro kv hkv
    have := List.find?_eq_none.1 h0 kv hkv
    simpa using this
  set R := tau 1 + 24 * 60 * 60 * 1000 with hR
  have inv : ∀ i, 1 ≤ i → i ≤ 15 →
      (createLoanRequestCalls st uid tau bv uf i).rateLimit =
        st.rateLimit ++ [(uid, { count := i, resetAt := R })] := by
    intro i
    induction i with
    | zero => omega
    | succ j ih =>
      intro _ hle
      by_cases hj : j = 0
      · subst hj
        show (createLoanRequest st uid (tau 1) (bv 1) (uf 1)).2.rateLimit = _
        exact createLoanRequest_rateLimit (checkRateLimit_first h0)
      · have hj1 : 1 ≤ j := by omega
        have hj15 : j ≤ 15 := by omega
        have hprev := ih hj1 hj15
        have hnow : ¬ tau (j + 1) > R := by
          have := hwin (j + 1) (by omega)
          omega
        have hstep := checkRateLimit_inc (c := j) hk hnow (by omega)
        show (createLoanRequest (createLoanRequestCalls st uid tau bv uf j) uid
          (tau (j + 1)) (bv (j + 1)) (uf (j + 1))).2.rateLimit = _
        exact createLoanRequest_rateLimit (by rw [hprev]; exact hstep)
  have h15 := inv 15 (by omega) (by omega)
  have hnow16 : ¬ tau 16 > R := by
    have := hwin 16 (by omega)
    omega
  have hrej := checkRateLimit_reject (c := 15) hk hnow16 (by omega)
  have hfinal := @createLoanRequest_rejected
    (createLoanRequestCalls st uid tau bv uf 15) uid (tau 16)
    (bv 16) (uf 16) _ (by rw [h15]; exact hrej)
  refine ⟨?_, hfinal.1, hfinal.2, rfl⟩
  intro i h1 h15i m
  by_cases hi : i = 1
  · subst hi
    exact createLoanRequest_not_rateLimited (checkRateLimit_first h0) m
  · have hprev := inv (i - 1) (by omega) (by omega)
    have hnow : ¬ tau i > R := by
      have := hwin i (by omega)
      omega
    have hstep := checkRateLimit_inc (c := i - 1) hk hnow (by omega)
    exact createLoanRequest_not_rateLimited (by rw [hprev]; exact hstep) m

/-- C10 witness: a concrete run from the empty store at times 1..16. -/
theorem C10_rate_limit_witness :
    (createLoanRequest (createLoanRequestCalls
        { rateLimit := [], loanRequests := [], nextLoanId := 0 } 4 (fun i => i)
        (fun _ => true) (fun _ => true) 15) 4 16 true true).1 =
      .rateLimited rateLimitMessage := by
  exact (C10_rate_limit { rateLimit := [], loanRequests := [], nextLoanId := 0 } 4
    (fun i => i) (fun _ => true) (fun _ => true) rfl
    (by intro i hi; show i ≤ 1 + 24 * 60 * 60 * 1000; omega)).2.1

/-! ## Machinery for the optimistic-concurrency proofs -/

theorem findTicket_spec {s : LRState} {id : Nat} {t : Ticket}
    (h : findTicket s id = some t) :
    t ∈ s.tickets ∧ t.id = id ∧ t.deletedAt = none := by
  unfold findTicket at h
  have hm := List.mem_of_find?_eq_some h
  have hp := List.find?_some h
  simp only [decide_eq_true_eq] at hp
  exact ⟨hm, hp.1, hp.2⟩

/-- The conditional write hits exactly the observed row when ids are unique
in the store. -/
theorem condUpdate_spec (s : LRState) (id : Nat) (t : Ticket) (f : Ticket → Ticket)
    (ht : t ∈ s.tickets) (htid : t.id = id)
    (hU : ∀ x ∈ s.tickets, x.id = id → x = t) :
    condUpdate s id t.version f =
      (some (f t),
       { s with tickets := s.tickets.map (fun x => if x.id = id then f t else x) }) := by
  unfold condUpdate
  have hfind : s.tickets.find? (fun x => decide (x.id = id ∧ x.version = t.version))
      = some t := by
    apply find?_eq_some_of_unique ht
    · simp [htid]
    · intro x hx hpx
      simp only [decide_eq_true_eq] at hpx
      exact hU x hx hpx.1
  rw [hfind]
  simp only [Option.map_some']
  have hmap : s.tickets.map (fun x => if x.id = id ∧ x.version = t.version then f x else x)
      = s.tickets.map (fun x => if x.id = id then f t else x) := by
    apply List.map_congr_left
    intro x hx
    by_cases hid : x.id = id
    · have hxt : x = t := hU x hx hid
      subst hxt
      simp [htid]
    · simp [hid]
  rw [hmap]

/-- A successful conditional write comes from a stored row carrying exactly
the observed version, and returns that row transformed. -/
theorem condUpdate_fst_some {s : LRState} {id v : Nat} {f : Ticket → Ticket}
    {u : Ticket} (h : (condUpdate s id v f).1 = some u) :
    ∃ x, x ∈ s.tickets ∧ x.id = id ∧ x.version = v ∧ u = f x := by
  unfold condUpdate at h
  simp only at h
  cases hfind : s.tickets.find? (fun t => decide (t.id = id ∧ t.version = v)) with
  | none => rw [hfind] at h; cases h
  | some x =>
    rw [hfind] at h
    have hm := List.mem_of_find?_eq_some hfind
    have hp := List.find?_some hfind
    simp only [decide_eq_true_eq] at hp
    simp only [Option.map_some'] at h
    exact ⟨x, hm, hp.1, hp.2, (Option.some.inj h).symm⟩

/-- A successful observed-row finance status write always returns a row at
the observed version plus one. -/
theorem updateStatusObserved_version {s : LRState} {obs : Ticket} {fid now : Nat}
    {st : LRStatus} {c : Option String} {u : Ticket} {r : LRState}
    (h : updateLoanRequestStatusObserved s obs fid now st c = (.success u, r)) :
    u.version = obs.version + 1 := by
  unfold updateLoanRequestStatusObserved at h
  by_cases hst : st ∈ allowedStatusTransitions obs.status
  · rw [if_neg (not_not_intro hst)] at h
    rcases hcu : condUpdate s obs.id obs.version (fun t =>
      { t with status := st, lastActivityAt := now, version := t.version + 1,
               updatedAt := now }) with ⟨updOpt, s1⟩
    rw [hcu] at h
    cases updOpt with
    | none => simp at h
    | some updated =>
      simp only at h
      have hu : u = updated := by
        have := congrArg Prod.fst h
        simpa using this.symm
      obtain ⟨x, _, _, hxv, hux⟩ := condUpdate_fst_some (u := updated)
        (by rw [hcu])
      subst hu
      rw [hux]
      simp [hxv]
  · rw [if_pos hst] at h
    simp at h

/-- The conditional write misses when no stored row carries the observed
version, and then leaves the store unchanged. -/
theorem condUpdate_miss (s : LRState) (tid v : Nat) (f : Ticket → Ticket)
    (h : ∀ x ∈ s.tickets, ¬ (x.id = tid ∧ x.version = v)) :
    condUpdate s tid v f = (none, s) := by
  unfold condUpdate
  have hfind : s.tickets.find? (fun x => decide (x.id = tid ∧ x.version = v)) = none :=
    List.find?_eq_none.2 (fun x hx => by simpa using h x hx)
  rw [hfind]
  have hmap : s.tickets.map (fun x => if x.id = tid ∧ x.version = v then f x else x)
      = s.tickets.map (fun x => x) := List.map_congr_left (fun x hx => by simp [h x hx])
  rw [hmap, List.map_id']
  rfl

/-- After rewriting the id-matching rows to u, the current-row re-read
returns u. -/
theorem find?_current_after_write {l : List Ticket} {tid : Nat} {t u : Ticket}
    (ht : t ∈ l) (htid : t.id = tid) (huid : u.id = tid)
    (_hU : ∀ x ∈ l, x.id = tid → x = t) :
    (l.map (fun x => if x.id = tid then u else x)).find? (fun x => decide (x.id = tid))
      = some u := by
  apply find?_eq_some_of_unique
  · exact List.mem_map.2 ⟨t, ht, by simp [htid]⟩
  · simp [huid]
  · intro y hy hpy
    obtain ⟨x, hx, hyx⟩ := List.mem_map.1 hy
    simp only [decide_eq_true_eq] at hpy
    by_cases hid : x.id = tid
    · rw [if_pos hid] at hyx
      exact hyx.symm
    · rw [if_neg hid] at hyx
      subst hyx
      exact absurd hpy hid

/-- After rewriting the id-matching rows to u, no row carries the old
version any more (u itself has moved past it). -/
theorem no_version_hit {l : List Ticket} {tid v : Nat} {u : Ticket}
    (huv : u.version ≠ v) :
    ∀ y ∈ l.map (fun x => if x.id = tid then u else x), ¬ (y.id = tid ∧ y.version = v) := by
  intro y hy hp
  obtain ⟨x, _, hyx⟩ := List.mem_map.1 hy
  by_cases hid : x.id = tid
  · rw [if_pos hid] at hyx
    subst hyx
    exact huv hp.2
  · rw [if_neg hid] at hyx
    subst hyx
    exact hid hp.1

/-- C4: optimistic concurrency on changeStatus.  Two sequential finance
changeStatus calls that both observed the ticket at version N: the first
succeeds through the conditional update on (id, version) and the stored row
moves to exactly version N + 1; the second, still holding the stale
observation, receives a conflict response carrying the now-current row and
changes nothing.  In addition every successful conditional status write
returns a row at exactly the observed version plus one — versions are never
skipped. -/
theorem C4_optimistic_concurrency (s : LRState) (id fid1 fid2 now1 now2 : Nat)
    (t : Ticket) (st1 st2 : LRStatus) (c1 c2 : Option String)
    (hfind : findTicket s id = some t)
    (hU : ∀ x ∈ s.tickets, x.id = id → x = t)
    (hadj1 : st1 ∈ allowedStatusTransitions t.status)
    (hadj2 : st2 ∈ allowedStatusTransitions t.status) :
    ∃ u : Ticket, ∃ s1 : LRState,
      updateLoanRequestStatusObserved s t fid1 now1 st1 c1 = (.success u, s1) ∧
      u.version = t.version + 1 ∧ u.status = st1 ∧ u.id = id ∧
      currentTicket s1 id = some u ∧
      updateLoanRequestStatusObserved s1 t fid2 now2 st2 c2 = (.conflict (some u), s1) ∧
      (∀ (s' r : LRState) (obs u' : Ticket) (fid nw : Nat) (stq : LRStatus)
        (cq : Option String),
        updateLoanRequestStatusObserved s' obs fid nw stq cq = (.success u', r) →
        u'.version = obs.version + 1) := by
  obtain ⟨ht, htid, hdel⟩ := findTicket_spec hfind
  subst htid
  have hcu := condUpdate_spec s t.id t (fun x =>
    { x with status := st1, lastActivityAt := now1, version := x.version + 1,
             updatedAt := now1 }) ht rfl hU
  set u : Ticket :=
    { t with status := st1, lastActivityAt := now1, version := t.version + 1, updatedAt := now1 }
    with hu
  set sm : LRState :=
    { s with tickets := s.tickets.map (fun x => if x.id = t.id then u else x) }
    with hsm
  have h1 : updateLoanRequestStatusObserved s t fid1 now1 st1 c1 =
      (.success u, createAuditLog sm t.id fid1 "status_change"
        (some t.status.toText) (some st1.toText) c1) := by
    unfold updateLoanRequestStatusObserved
    rw [if_neg (not_not_intro hadj1), hcu]
  set s1 : LRState := createAuditLog sm t.id fid1 "status_change"
    (some t.status.toText) (some st1.toText) c1 with hs1
  have hs1tickets : s1.tickets = s.tickets.map (fun x => if x.id = t.id then u else x) := by
    rw [hs1, hsm]
    rfl
  have hcur : currentTicket s1 t.id = some u := by
    unfold currentTicket
    rw [hs1tickets]
    exact find?_current_after_write ht rfl rfl hU
  have hmiss : condUpdate s1 t.id t.version (fun x =>
      { x with status := st2, lastActivityAt := now2, version := x.version + 1,
               updatedAt := now2 }) = (none, s1) := by
    apply condUpdate_miss
    rw [hs1tickets]
    exact no_version_hit (by simp [hu])
  have h2 : updateLoanRequestStatusObserved s1 t fid2 now2 st2 c2 =
      (.conflict (some u), s1) := by
    unfold updateLoanRequestStatusObserved
    rw [if_neg (not_not_intro hadj2), hmiss]
    show (StatusResult.conflict (currentTicket s1 t.id), s1) = _
    rw [hcur]
  refine ⟨u, s1, h1, by simp [hu], by simp [hu], by simp [hu], hcur, h2, ?_⟩
  intro s' r obs u' fid nw stq cq h
  exact updateStatusObserved_version h

/-- A received ticket at version 1 for the C4 witness. -/
def c4Ticket : Ticket :=
  { id := 1, status := .received, assigneeId := none, version := 1,
    priority := "normal", isEscalated := false, escalationReason := none,
    lastActivityAt := 0, updatedAt := 0, deletedAt := none }

/-- A store holding only c4Ticket. -/
def c4State : LRState :=
  { tickets := [c4Ticket], users := [], assignments := [], auditLogs := [] }

/-- C4 witness: the two-call race at a concrete ticket. -/
theorem C4_optimistic_concurrency_witness :
    ∃ u : Ticket, ∃ s1 : LRState,
      updateLoanRequestStatusObserved c4State c4Ticket 7 5 .under_review none =
        (.success u, s1) ∧
      u.version = c4Ticket.version + 1 ∧ u.status = .under_review ∧ u.id = 1 ∧
      currentTicket s1 1 = some u ∧
      updateLoanRequestStatusObserved s1 c4Ticket 8 6 .rejected (some "no") =
        (.conflict (some u), s1) ∧
      (∀ (s' r : LRState) (obs u' : Ticket) (fid nw : Nat) (stq : LRStatus)
        (cq : Option String),
        updateLoanRequestStatusObserved s' obs fid nw stq cq = (.success u', r) →
        u'.version = obs.version + 1) := by
  exact C4_optimistic_concurrency c4State 1 7 8 5 6 c4Ticket .under_review .rejected
    none (some "no") (by decide)
    (by intro x hx h; simp [c4State] at hx; exact hx)
    (by decide) (by decide)

/-- C5 (amended): the finance changeStatus enforces the adjacency table —
for every (currentStatus, requestedStatus) pair outside it the call fails
with a 400-class result and leaves the store untouched; whenever the
closed/rejected comment rule is met — the comment present and non-empty,
since the JS `!comment` guard is falsy on both — the failure echoes the
allowed transition set.  (The admin variant, contrary to the original
claim, performs no adjacency check at all: see the counterexample.) -/
theorem C5_adjacency_finance (s : LRState) (tid fid now : Nat) (t : Ticket)
    (status : LRStatus) (comment : Option String)
    (hfind : findTicket s tid = some t)
    (hbad : status ∉ allowedStatusTransitions t.status) :
    (updateLoanRequestStatus s tid fid now status comment).2 = s ∧
    ((updateLoanRequestStatus s tid fid now status comment).1 = .commentRequired ∨
     (updateLoanRequestStatus s tid fid now status comment).1 =
       .invalidTransition t.status status (allowedStatusTransitions t.status)) ∧
    (((status = .closed ∨ status = .rejected) →
        comment ≠ none ∧ comment ≠ some "") →
      (updateLoanRequestStatus s tid fid now status comment).1 =
        .invalidTransition t.status status (allowedStatusTransitions t.status)) := by
  by_cases hcc : (status = .closed ∨ status = .rejected) ∧
      (comment = none ∨ comment = some "")
  · have h : updateLoanRequestStatus s tid fid now status comment =
        (.commentRequired, s) := by
      unfold updateLoanRequestStatus
      rw [if_pos hcc]
    refine ⟨by rw [h], Or.inl (by rw [h]), ?_⟩
    intro hcm
    rcases hcc.2 with hc | hc
    · exact absurd hc (hcm hcc.1).1
    · exact absurd hc (hcm hcc.1).2
  · have h : updateLoanRequestStatus s tid fid now status comment =
        (.invalidTransition t.status status (allowedStatusTransitions t.status), s) := by
      unfold updateLoanRequestStatus
      rw [if_neg hcc, hfind]
      show updateLoanRequestStatusObserved s t fid now status comment = _
      unfold updateLoanRequestStatusObserved
      rw [if_pos hbad]
    exact ⟨by rw [h], Or.inr (by rw [h]), fun _ => by rw [h]⟩

/-- C5 witness: the finance call rejects closed → received on a concrete
ticket, echoing the (empty) allowed set, without touching the store. -/
theorem C5_adjacency_finance_witness :
    (updateLoanRequestStatus c5State 1 7 5 .received none).2 = c5State ∧
    ((updateLoanRequestStatus c5State 1 7 5 .received none).1 = .commentRequired ∨
     (updateLoanRequestStatus c5State 1 7 5 .received none).1 =
       .invalidTransition c5Ticket.status .received
         (allowedStatusTransitions c5Ticket.status)) ∧
    (((LRStatus.received = .closed ∨ LRStatus.received = .rejected) →
        (none : Option String) ≠ none ∧ (none : Option String) ≠ some "") →
      (updateLoanRequestStatus c5State 1 7 5 .received none).1 =
        .invalidTransition c5Ticket.status .received
          (allowedStatusTransitions c5Ticket.status)) := by
  exact C5_adjacency_finance c5State 1 7 5 c5Ticket .received none (by decide) (by decide)

/-- C7 (amended): take on a ticket assigned to someone else fails with the
409 naming branch and changes nothing; take on an unassigned ticket or on a
ticket already assigned to the caller re-applies the write: it sets the
assignee, sets the status to under_review whatever the previous status was
(the original claim said a non-received status would be preserved — see the
counterexample), increments the version by one, and appends one assignment
record plus an assignment audit entry and a status-change audit entry. -/
theorem C7_take_behaviour (s : LRState) (tid fid now : Nat) (t : Ticket)
    (hfind : findTicket s tid = some t)
    (hU : ∀ x ∈ s.tickets, x.id = tid → x = t) :
    ((∃ a, t.assigneeId = some a ∧ a ≠ fid) →
      ∃ msg, takeLoanRequest s tid fid now = (.alreadyAssigned msg t, s)) ∧
    ((t.assigneeId = none ∨ t.assigneeId = some fid) →
      ∃ u s4, takeLoanRequest s tid fid now = (.success u, s4) ∧
        u.assigneeId = some fid ∧ u.status = .under_review ∧
        u.version = t.version + 1 ∧ u.id = tid ∧
        currentTicket s4 tid = some u ∧
        s4.assignments = s.assignments ++
          [{ loanRequestId := tid, assignedById := fid, assigneeId := fid,
             comment := some "Self-assigned" }] ∧
        s4.auditLogs = s.auditLogs ++
          [{ loanRequestId := tid, actorId := fid, action := "assigned",
             oldValue := none, newValue := jsStringOrNull (some (toString fid)),
             comment := some "Self-assigned" },
           { loanRequestId := tid, actorId := fid, action := "status_change",
             oldValue := jsStringOrNull (some t.status.toText),
             newValue := some "under_review", comment := none }]) := by
  obtain ⟨ht, htid, hdel⟩ := findTicket_spec hfind
  subst htid
  constructor
  · rintro ⟨a, ha, hne⟩
    have hcond : t.assigneeId ≠ none ∧ t.assigneeId ≠ some fid := by
      rw [ha]
      exact ⟨by simp, by simpa using hne⟩
    refine ⟨"Already assigned to " ++
      (match t.assigneeId.bind (fun a => s.users.find? (fun u => decide (u.id = a))) with
       | some u => if u.name = "" then "another user" else u.name
       | none => "another user"), ?_⟩
    unfold takeLoanRequest
    rw [hfind]
    show (if t.assigneeId ≠ none ∧ t.assigneeId ≠ some fid then _ else _) = _
    rw [if_pos hcond]
  · intro hmine
    have hcond : ¬ (t.assigneeId ≠ none ∧ t.assigneeId ≠ some fid) := by
      rcases hmine with h | h <;> simp [h]
    have hcu := condUpdate_spec s t.id t (fun x =>
      { x with assigneeId := some fid, status := .under_review,
               lastActivityAt := now, version := x.version + 1, updatedAt := now })
      ht rfl hU
    set u : Ticket :=
      { t with assigneeId := some fid, status := .under_review,
               lastActivityAt := now, version := t.version + 1, updatedAt := now }
      with hu
    set sm : LRState :=
      { s with tickets := s.tickets.map (fun x => if x.id = t.id then u else x) }
      with hsm
    have htake : takeLoanRequest s t.id fid now =
        (.success u,
         createAuditLog
           (createAuditLog
             { sm with assignments := sm.assignments ++
                 [{ loanRequestId := t.id, assignedById := fid, assigneeId := fid,
                    comment := some "Self-assigned" }] }
             t.id fid "assigned" none (some (toString fid)) (some "Self-assigned"))
           t.id fid "status_change" (some t.status.toText) (some "under_review") none) := by
      unfold takeLoanRequest
      rw [hfind]
      show (if t.assigneeId ≠ none ∧ t.assigneeId ≠ some fid then _ else _) = _
      rw [if_neg hcond, hcu]
    refine ⟨u, _, htake, by simp [hu], by simp [hu], by simp [hu], by simp [hu], ?_, ?_, ?_⟩
    · show currentTicket (createAuditLog (createAuditLog _ _ _ _ _ _ _) _ _ _ _ _ _) t.id
        = some u
      unfold currentTicket
      show (s.tickets.map (fun x => if x.id = t.id then u else x)).find?
        (fun x => decide (x.id = t.id)) = some u
      exact find?_current_after_write ht rfl (by simp [hu]) hU
    · simp [createAuditLog, hsm]
    · simp [createAuditLog, hsm, jsStringOrNull]

/-- An under-review ticket held by employee 7, for the C7 witness. -/
def c7wTicket : Ticket :=
  { id := 2, status := .under_review, assigneeId := some 7, version := 5,
    priority := "normal", isEscalated := false, escalationReason := none,
    lastActivityAt := 0, updatedAt := 0, deletedAt := none }

/-- A store holding only c7wTicket, which is assigned to employee 7. -/
def c7wState : LRState :=
  { tickets := [c7wTicket], users := [], assignments := [], auditLogs := [] }

/-- The row c7wTicket after employee 7 re-takes it. -/
def c7wTicketRetaken : Ticket :=
  { c7wTicket with assigneeId := some 7, status := .under_review,
                   lastActivityAt := 9, version := c7wTicket.version + 1, updatedAt := 9 }

/-- C7 witness: employee 8 cannot take the ticket employee 7 holds, and
employee 7 can re-take their own ticket. -/
theorem C7_take_behaviour_witness :
    (∃ msg, takeLoanRequest c7wState 2 8 9 = (.alreadyAssigned msg c7wTicket, c7wState)) ∧
    (∃ u s4, takeLoanRequest c7wState 2 7 9 = (.success u, s4) ∧
      u.assigneeId = some 7 ∧ u.status = .under_review ∧
      u.version = c7wTicket.version + 1 ∧ u.id = 2 ∧
      currentTicket s4 2 = some u ∧
      s4.assignments = c7wState.assignments ++
        [{ loanRequestId := 2, assignedById := 7, assigneeId := 7,
           comment := some "Self-assigned" }] ∧
      s4.auditLogs = c7wState.auditLogs ++
        [{ loanRequestId := 2, actorId := 7, action := "assigned",
           oldValue := none, newValue := jsStringOrNull (some (toString 7)),
           comment := some "Self-assigned" },
         { loanRequestId := 2, actorId := 7, action := "status_change",
           oldValue := jsStringOrNull (some c7wTicket.status.toText),
           newValue := some "under_review", comment := none }]) := by
  constructor
  · exact (C7_take_behaviour c7wState 2 8 9 c7wTicket (by decide)
      (by intro x hx h; simp [c7wState] at hx; exact hx)).1
      ⟨7, by decide, by decide⟩
  · exact (C7_take_behaviour c7wState 2 7 9 c7wTicket (by decide)
      (by intro x hx h; simp [c7wState] at hx; exact hx)).2
      (Or.inr (by decide))

/-! ## Version discipline of the ticket mutations (C6) -/

theorem updateStatusObserved_version_fst {s : LRState} {obs : Ticket}
    {fid now : Nat} {st : LRStatus} {c : Option String} {u : Ticket}
    (h : (updateLoanRequestStatusObserved s obs fid now st c).1 = .success u) :
    u.version = obs.version + 1 := by
  have hpair : updateLoanRequestStatusObserved s obs fid now st c =
      (.success u, (updateLoanRequestStatusObserved s obs fid now st c).2) := by
    rw [← h]
  exact updateStatusObserved_version hpair

theorem adminStatusObserved_version_fst {s : LRState} {obs : Ticket}
    {aid now : Nat} {st : LRStatus} {c : Option String} {u : Ticket}
    (h : (changeAdminLoanRequestStatusObserved s obs aid now st c).1 = .success u) :
    u.version = obs.version + 1 := by
  unfold changeAdminLoanRequestStatusObserved at h
  rcases hcu : condUpdate s obs.id obs.version (fun t =>
    { t with status := st, lastActivityAt := now, version := t.version + 1,
             updatedAt := now }) with ⟨updOpt, s1⟩
  rw [hcu] at h
  cases updOpt with
  | none => simp at h
  | some upd =>
    have hu : u = upd := by simpa using h.symm
    obtain ⟨x, _, _, hxv, hux⟩ := condUpdate_fst_some (u := upd) (by rw [hcu])
    subst hu
    rw [hux]
    simp [hxv]

theorem take_success_version {s : LRState} {tid fid now : Nat} {u : Ticket}
    (h : (takeLoanRequest s tid fid now).1 = .success u) :
    ∃ x, x ∈ s.tickets ∧ x.id = tid ∧ u.version = x.version + 1 := by
  unfold takeLoanRequest at h
  split at h
  · simp at h
  · split at h
    · simp at h
    · split at h
      rename_i a existing heqf hna x updOpt s1 heq
      cases updOpt with
      | none => simp at h
      | some upd =>
        simp only at h
        have h1 : (condUpdate s tid existing.version (fun t =>
            { t with assigneeId := some fid, status := .under_review,
                     lastActivityAt := now, version := t.version + 1,
                     updatedAt := now })).1 = some upd := by rw [heq]
        obtain ⟨x2, hx, hxid, hxv, hux⟩ := condUpdate_fst_some h1
        have hu : upd = u := by simpa using h
        obtain ⟨hm, hid, _⟩ := findTicket_spec heqf
        exact ⟨x2, hx, hxid, by rw [← hu, hux]⟩

theorem escalate_success_version {s : LRState} {tid aid now : Nat}
    {reason : String} {u : Ticket}
    (h : (escalateLoanRequest s tid aid now reason).1 = .success u) :
    ∃ x, x ∈ s.tickets ∧ x.id = tid ∧ u.version = x.version + 1 := by
  unfold escalateLoanRequest at h
  split at h
  · simp at h
  · split at h
    · simp at h
    · split at h
      rename_i hr a existing heqf x updOpt s1 heq
      cases updOpt with
      | none => simp at h
      | some upd =>
        simp only at h
        have h1 : (condUpdate s tid existing.version (fun t =>
            { t with isEscalated := true, escalationReason := some reason,
                     priority := "high", lastActivityAt := now,
                     version := t.version + 1, updatedAt := now })).1 = some upd := by
          rw [heq]
        obtain ⟨x2, hx, hxid, hxv, hux⟩ := condUpdate_fst_some h1
        have hu : upd = u := by simpa using h
        exact ⟨x2, hx, hxid, by rw [← hu, hux]⟩

theorem reassign_success_version {s : LRState} {tid aid now : Nat}
    {assigneeId : Option Nat} {c : Option String} {autoAssign : Bool} {u : Ticket}
    (h : (reassignLoanRequest s tid aid now assigneeId c autoAssign).1 = .success u) :
    ∃ x, x ∈ s.tickets ∧ x.id = tid ∧ u.version = x.version + 1 := by
  unfold reassignLoanRequest at h
  split at h
  · simp at h
  · split at h
    · simp at h
    · rename_i existing heqf
      split at h
      · cases hlb : leastBusyFinance s with
        | none => rw [hlb] at h; simp at h
        | some target =>
          rw [hlb] at h
          simp only at h
          cases hfu : s.users.find? (fun us => decide (us.id = target ∧
              us.role = "employee" ∧ us.department = "Finance" ∧
              us.active = true)) with
          | none => rw [hfu] at h; simp at h
          | some assignee =>
            rw [hfu] at h
            simp only at h
            rcases hcv : condUpdate s tid existing.version (fun t =>
                { t with assigneeId := some target,
                         status := if existing.status = .received then .under_review
                                   else existing.status,
                         lastActivityAt := now, version := t.version + 1,
                         updatedAt := now }) with ⟨updOpt, s1⟩
            rw [hcv] at h
            simp only at h
            cases updOpt with
            | none => simp at h
            | some upd =>
              simp only at h
              have h1 : (condUpdate s tid existing.version (fun t =>
                  { t with assigneeId := some target,
                           status := if existing.status = .received then .under_review
                                     else existing.status,
                           lastActivityAt := now, version := t.version + 1,
                           updatedAt := now })).1 = some upd := by rw [hcv]
              obtain ⟨x2, hx, hxid, hxv, hux⟩ := condUpdate_fst_some h1
              have hu : upd = u := by simpa using h
              exact ⟨x2, hx, hxid, by rw [← hu, hux]⟩
      · cases assigneeId with
        | none => simp at h
        | some target =>
          simp only at h
          cases hfu : s.users.find? (fun us => decide (us.id = target ∧
              us.role = "employee" ∧ us.department = "Finance" ∧
              us.active = true)) with
          | none => rw [hfu] at h; simp at h
          | some assignee =>
            rw [hfu] at h
            simp only at h
            rcases hcv : condUpdate s tid existing.version (fun t =>
                { t with assigneeId := some target,
                         status := if existing.status = .received then .under_review
                                   else existing.status,
                         lastActivityAt := now, version := t.version + 1,
                         updatedAt := now }) with ⟨updOpt, s1⟩
            rw [hcv] at h
            simp only at h
            cases updOpt with
            | none => simp at h
            | some upd =>
              simp only at h
              have h1 : (condUpdate s tid existing.version (fun t =>
                  { t with assigneeId := some target,
                           status := if existing.status = .received then .under_review
                                     else existing.status,
                           lastActivityAt := now, version := t.version + 1,
                           updatedAt := now })).1 = some upd := by rw [hcv]
              obtain ⟨x2, hx, hxid, hxv, hux⟩ := condUpdate_fst_some h1
              have hu : upd = u := by simpa using h
              exact ⟨x2, hx, hxid, by rw [← hu, hux]⟩

theorem updateStatus_success_version {s : LRState} {tid fid now : Nat}
    {st : LRStatus} {c : Option String} {u : Ticket}
    (h : (updateLoanRequestStatus s tid fid now st c).1 = .success u) :
    ∃ x, x ∈ s.tickets ∧ x.id = tid ∧ u.version = x.version + 1 := by
  unfold updateLoanRequestStatus at h
  split at h
  · simp at h
  · split at h
    · simp at h
    · rename_i existing heqf
      obtain ⟨hm, hid, _⟩ := findTicket_spec heqf
      exact ⟨existing, hm, hid, updateStatusObserved_version_fst h⟩

theorem adminChangeStatus_success_version {s : LRState} {tid aid now : Nat}
    {st : LRStatus} {c : Option String} {u : Ticket}
    (h : (changeAdminLoanRequestStatus s tid aid now st c).1 = .success u) :
    ∃ x, x ∈ s.tickets ∧ x.id = tid ∧ u.version = x.version + 1 := by
  unfold changeAdminLoanRequestStatus at h
  split at h
  · simp at h
  · split at h
    · simp at h
    · rename_i existing heqf
      obtain ⟨hm, hid, _⟩ := findTicket_spec heqf
      exact ⟨existing, hm, hid, adminStatusObserved_version_fst h⟩

theorem foldl_preserves_tickets {β : Type} (g : LRState → β → LRState)
    (hg : ∀ s b, (g s b).tickets = s.tickets) (l : List β) (s : LRState) :
    (l.foldl g s).tickets = s.tickets := by
  induction l generalizing s with
  | nil => rfl
  | cons b l ih => rw [List.foldl_cons, ih, hg]

theorem bulkEscalate_versions (s : LRState) (aid now : Nat) (ids : List Nat)
    (reason : String) :
    ((bulkEscalateLoanRequests s aid now ids reason).2.tickets.map
      (fun t => t.version)) = s.tickets.map (fun t => t.version) := by
  unfold bulkEscalateLoanRequests
  split
  · rfl
  · simp only
    rw [foldl_preserves_tickets (fun acc tid =>
      createAuditLog acc tid aid "bulk_escalated" none (some "high") (some reason))
      (fun s' b => rfl)]
    rw [List.map_map]
    apply List.map_congr_left
    intro x hx
    by_cases hcond : x.id ∈ ids ∧ x.deletedAt = none <;> simp [hcond]

theorem bulkReassign_versions (s : LRState) (aid now : Nat) (ids : List Nat)
    (assigneeId : Option Nat) (autoAssign : Bool) :
    ((bulkReassignLoanRequests s aid now ids assigneeId autoAssign).2.tickets.map
      (fun t => t.version)) = s.tickets.map (fun t => t.version) := by
  unfold bulkReassignLoanRequests
  split
  · rfl
  · split
    · rfl
    · split
      · cases hlb : leastBusyFinance s with
        | none => rfl
        | some target =>
          simp only
          rw [foldl_preserves_tickets (fun acc tid =>
            createAuditLog
              { acc with assignments := acc.assignments ++
                  [{ loanRequestId := tid, assignedById := aid, assigneeId := target,
                     comment := some "Bulk reassigned" }] }
              tid aid "bulk_reassigned" none (some (toString target)) none)
            (fun s' b => rfl)]
          rw [List.map_map]
          apply List.map_congr_left
          intro x hx
          by_cases hcond : x.id ∈ ids ∧ x.deletedAt = none <;> simp [hcond]
      · cases assigneeId with
        | none => rfl
        | some target =>
          simp only
          rw [foldl_preserves_tickets (fun acc tid =>
            createAuditLog
              { acc with assignments := acc.assignments ++
                  [{ loanRequestId := tid, assignedById := aid, assigneeId := target,
                     comment := some "Bulk reassigned" }] }
              tid aid "bulk_reassigned" none (some (toString target)) none)
            (fun s' b => rfl)]
          rw [List.map_map]
          apply List.map_congr_left
          intro x hx
          by_cases hcond : x.id ∈ ids ∧ x.deletedAt = none <;> simp [hcond]

/-- C6 (amended): every successful single-ticket mutation of status,
assignee or escalation — take, the finance and admin changeStatus variants,
escalate and reassign — returns a written row whose version is exactly the
stored row's version plus one.  The bulk variants bulkReassign and
bulkEscalate, contrary to the original claim, never touch the version
column: every stored version is unchanged by them (see the counterexample).
-/
theorem C6_version_discipline :
    (∀ (s : LRState) (tid fid now : Nat) (u : Ticket),
      (takeLoanRequest s tid fid now).1 = .success u →
      ∃ x, x ∈ s.tickets ∧ x.id = tid ∧ u.version = x.version + 1) ∧
    (∀ (s : LRState) (tid fid now : Nat) (st : LRStatus) (c : Option String)
      (u : Ticket),
      (updateLoanRequestStatus s tid fid now st c).1 = .success u →
      ∃ x, x ∈ s.tickets ∧ x.id = tid ∧ u.version = x.version + 1) ∧
    (∀ (s : LRState) (tid aid now : Nat) (st : LRStatus) (c : Option String)
      (u : Ticket),
      (changeAdminLoanRequestStatus s tid aid now st c).1 = .success u →
      ∃ x, x ∈ s.tickets ∧ x.id = tid ∧ u.version = x.version + 1) ∧
    (∀ (s : LRState) (tid aid now : Nat) (reason : String) (u : Ticket),
      (escalateLoanRequest s tid aid now reason).1 = .success u →
      ∃ x, x ∈ s.tickets ∧ x.id = tid ∧ u.version = x.version + 1) ∧
    (∀ (s : LRState) (tid aid now : Nat) (assigneeId : Option Nat)
      (c : Option String) (autoAssign : Bool) (u : Ticket),
      (reassignLoanRequest s tid aid now assigneeId c autoAssign).1 = .success u →
      ∃ x, x ∈ s.tickets ∧ x.id = tid ∧ u.version = x.version + 1) ∧
    (∀ (s : LRState) (aid now : Nat) (ids : List Nat) (assigneeId : Option Nat)
      (autoAssign : Bool),
      ((bulkReassignLoanRequests s aid now ids assigneeId autoAssign).2.tickets.map
        (fun t => t.version)) = s.tickets.map (fun t => t.version)) ∧
    (∀ (s : LRState) (aid now : Nat) (ids : List Nat) (reason : String),
      ((bulkEscalateLoanRequests s aid now ids reason).2.tickets.map
        (fun t => t.version)) = s.tickets.map (fun t => t.version)) := by
  refine ⟨?_, ?_, ?_, ?_, ?_, ?_, ?_⟩
  · intro s tid fid now u h
    exact take_success_version h
  · intro s tid fid now st c u h
    exact updateStatus_success_version h
  · intro s tid aid now st c u h
    exact adminChangeStatus_success_version h
  · intro s tid aid now reason u h
    exact escalate_success_version h
  · intro s tid aid now assigneeId c autoAssign u h
    exact reassign_success_version h
  · intro s aid now ids assigneeId autoAssign
    exact bulkReassign_versions s aid now ids assigneeId autoAssign
  · intro s aid now ids reason
    exact bulkEscalate_versions s aid now ids reason

/-- C6 witness: the take conjunct applied at a concrete successful take, and
the bulkEscalate conjunct applied at a concrete bulk escalation. -/
theorem C6_version_discipline_witness :
    (∃ x, x ∈ c7wState.tickets ∧ x.id = 2 ∧ c7wTicketRetaken.version = x.version + 1) ∧
    ((bulkEscalateLoanRequests c6State 9 5 [1] "stuck for a week").2.tickets.map
      (fun t => t.version)) = c6State.tickets.map (fun t => t.version) := by
  constructor
  · exact C6_version_discipline.1 c7wState 2 7 9 c7wTicketRetaken rfl
  · exact C6_version_discipline.2.2.2.2.2.2 c6State 9 5 [1] "stuck for a week"

/-! ## C1: approve rollback for update-type changes -/

/-- C1 (amended): when approve is interrupted between the canonical write
and the status update, the rollback restores the canonical property to its
pre-write snapshot and re-raises the error — but only for an update-type
change (non-null target) whose target row exists: the state comes back
exactly to the pre-approve state and the change never reaches status
approved.  For a creation change (null target) the compensation at lines
245-251 is skipped because there is neither a propertyId nor a snapshot,
and the inserted canonical row survives the failed finalize — see the
counterexample. -/
theorem C1_approve_rollback (s : PCState) (changeId adminId now : Nat)
    (applyAs : String) (mp : Option Payload) (pc : PendingChange)
    (hfind : s.changes.find? (fun c => decide (c.id = changeId)) = some pc)
    (hstat : pc.status = "pending" ∨ pc.status = "needs_revision")
    (pid : Nat) (hpid : pc.propertyId = some pid)
    (oldp : Property)
    (hold : s.properties.find? (fun p => decide (p.id = pid)) = some oldp)
    (hUp : ∀ q ∈ s.properties, q.id = pid → q = oldp) :
    approvePendingChange s changeId adminId now applyAs mp true =
      (.serverError, s) := by
  have hcond : ¬ (pc.status ≠ "pending" ∧ pc.status ≠ "needs_revision") := by
    rcases hstat with h | h <;> simp [h]
  obtain ⟨sp, sc, su, sl, sa, snc, snp⟩ := s
  unfold approvePendingChange
  rw [hfind]
  show (if pc.status ≠ "pending" ∧ pc.status ≠ "needs_revision" then _ else _) = _
  rw [if_neg hcond, hpid]
  simp only
  rw [hold]
  simp only [if_true, Option.map_some']
  congr 1
  congr 1
  rw [List.map_map]
  have h2 : sp.map ((fun p => if p.id = pid then oldp else p) ∘
      (fun p => if p.id = pid then
        { p with fields := mergePayload p.fields (normalizePrice
            (if applyAs = "mergedPayload" then
              match mp with
              | some m => m
              | none => pc.proposedPayload
            else pc.proposedPayload)), updatedAt := now } else p)) =
      sp.map (fun p => p) := by
    apply List.map_congr_left
    intro p hp
    by_cases hid : p.id = pid
    · simp only [Function.comp, if_pos hid]
      exact (hUp p hp hid).symm
    · simp [Function.comp, hid]
  rw [h2, List.map_id']

/-- A pending update change on property 3 for the C1 witness. -/
def c1wChange : PendingChange :=
  { id := 0, propertyId := some 3, proposerId := 7,
    proposedPayload := [("title", .str "Edit")], diffSummary := none,
    status := "pending", reason := none, isDraft := false, createdAt := 0,
    reviewedAt := none, reviewedByAdminId := none }

/-- The property row the c1wChange targets. -/
def c1wProperty : Property :=
  { id := 3, deleted := false, fields := [("title", .str "Old")],
    assignedEmployeeId := some 7, createdByEmployeeId := some 7, updatedAt := 0 }

/-- A store with the update change and its target property. -/
def c1wState : PCState :=
  { properties := [c1wProperty], changes := [c1wChange], uploads := [],
    ledger := [], assignments := [(3, 7)], nextChangeId := 1,
    nextPropertyId := 4 }

/-- C1 witness: the interrupted approve of an update change restores the
store exactly. -/
theorem C1_approve_rollback_witness :
    approvePendingChange c1wState 0 9 5 "proposed" none true =
      (.serverError, c1wState) := by
  exact C1_approve_rollback c1wState 0 9 5 "proposed" none c1wChange rfl
    (Or.inl rfl) 3 rfl c1wProperty rfl
    (by intro q hq h; simp [c1wState] at hq; exact hq)

/-- C8 (amended): the only status guard around the terminal statuses is the
one inside approve — a second approve of an approved or rejected change
fails with the already-processed error and changes nothing.  Withdraw checks
ownership only: a non-proposer gets notFound, but the proposer may withdraw
a change in any status.  Reject carries no status check at all: it moves any
found change — including an approved or rejected one — to rejected (see the
counterexample), and requestChanges likewise overwrites any status with
needs_revision. -/
theorem C8_terminal_statuses :
    (∀ (s : PCState) (changeId adminId now : Nat) (applyAs : String)
      (mp : Option Payload) (ff : Bool) (pc : PendingChange),
      s.changes.find? (fun c => decide (c.id = changeId)) = some pc →
      (pc.status = "approved" ∨ pc.status = "rejected") →
      approvePendingChange s changeId adminId now applyAs mp ff =
        (.alreadyProcessed, s)) ∧
    (∀ (s : PCState) (changeId eid : Nat) (mtd : Bool),
      (∀ c ∈ s.changes, ¬ (c.id = changeId ∧ c.proposerId = eid)) →
      withdrawPendingChange s changeId eid mtd = (.notFound, s)) ∧
    (∀ (s : PCState) (changeId adminId now : Nat) (reason : String)
      (pc : PendingChange),
      reason ≠ "" →
      s.changes.find? (fun c => decide (c.id = changeId)) = some pc →
      rejectPendingChange s changeId adminId now reason =
        (.ok, { s with changes := s.changes.map (fun c =>
          if c.id = changeId then
            { c with status := "rejected", reason := some reason,
                     reviewedAt := some now, reviewedByAdminId := some adminId }
          else c) })) := by
  refine ⟨?_, ?_, ?_⟩
  · intro s changeId adminId now applyAs mp ff pc hfind hterm
    have hcond : pc.status ≠ "pending" ∧ pc.status ≠ "needs_revision" := by
      rcases hterm with h | h <;> simp [h]
    unfold approvePendingChange
    rw [hfind]
    show (if pc.status ≠ "pending" ∧ pc.status ≠ "needs_revision" then _ else _) = _
    rw [if_pos hcond]
  · intro s changeId eid mtd hnone
    have hfind : s.changes.find? (fun c =>
        decide (c.id = changeId ∧ c.proposerId = eid)) = none :=
      List.find?_eq_none.2 (fun c hc => by simpa using hnone c hc)
    unfold withdrawPendingChange
    rw [hfind]
  · intro s changeId adminId now reason pc hreason hfind
    unfold rejectPendingChange
    rw [if_neg hreason, hfind]

/-- C8 witness: the three conjuncts at concrete inputs — a second approve of
the approved change c8Change is refused, a non-proposer cannot withdraw it,
and reject still flips it to rejected. -/
theorem C8_terminal_statuses_witness :
    approvePendingChange c8State 0 9 5 "proposed" none false =
      (.alreadyProcessed, c8State) ∧
    withdrawPendingChange c8State 0 8 false = (.notFound, c8State) ∧
    rejectPendingChange c8State 0 9 5 "late rejection" =
      (.ok, { c8State with changes := c8State.changes.map (fun c =>
        if c.id = 0 then
          { c with status := "rejected", reason := some "late rejection",
                   reviewedAt := some 5, reviewedByAdminId := some 9 }
        else c) }) := by
  refine ⟨?_, ?_, ?_⟩
  · exact C8_terminal_statuses.1 c8State 0 9 5 "proposed" none false c8Change rfl
      (Or.inl rfl)
  · exact C8_terminal_statuses.2.1 c8State 0 8 false
      (by intro c hc; simp [c8State] at hc; subst hc; simp [c8Change])
  · exact C8_terminal_statuses.2.2 c8State 0 9 5 "late rejection" c8Change
      (by simp) rfl

/-! ## C3: idempotency of submitPendingChange -/

/-- C3: replaying an idempotency key.  When a first submission with key k
goes through the full created path, a second submission carrying the same
key — whatever its target, caller or payload — returns the same changeId
with the idempotent-replay result and leaves the store untouched; exactly
one ledger row holds the key and exactly one PendingChange row carries the
created id. -/
theorem C3_idempotency (s : PCState) (pid eid now pid2 eid2 now2 : Nat)
    (d d2 : SubmitData) (k : Nat)
    (hk : d.idempotencyKey = some k) (hk2 : d2.idempotencyKey = some k)
    (hw : ∀ ch ∈ s.changes, ch.id < s.nextChangeId)
    (hidem : s.ledger.find? (fun r => decide (r.idempotencyKey = k)) = none)
    (hassign : (pid, eid) ∈ s.assignments)
    (prop : Property)
    (hprop : s.properties.find? (fun p => decide (p.id = pid ∧ p.deleted = false))
      = some prop)
    (hfields : (d.proposedPayload.map (fun kv => kv.1)).filter
      (fun f => decide (f ∉ ALLOWED_EMPLOYEE_FIELDS)) = [])
    (hupl : (s.uploads.filter (fun u => decide (u.id ∈ d.uploadedAssetIds ∧
      u.ownerId = eid))).length = d.uploadedAssetIds.length)
    (hconf : (if d.isDraft then none
      else s.changes.find? (isLivePendingFor pid eid)) = none) :
    ∃ s1 : PCState,
      submitPendingChange s pid eid now d =
        (.created s.nextChangeId (if d.isDraft then "draft" else "pending"), s1) ∧
      submitPendingChange s1 pid2 eid2 now2 d2 =
        (.idempotentReplay s.nextChangeId (if d.isDraft then "draft" else "pending"),
         s1) ∧
      (s1.ledger.filter (fun r => decide (r.idempotencyKey = k))).length = 1 ∧
      (s1.changes.filter (fun c => decide (c.id = s.nextChangeId))).length = 1 := by
  set cid := s.nextChangeId with hcid
  set newC : PendingChange :=
    { id := cid, propertyId := some pid, proposerId := eid,
      proposedPayload := d.proposedPayload, diffSummary := d.diffSummary,
      status := if d.isDraft then "draft" else "pending",
      reason := none, isDraft := d.isDraft, createdAt := now,
      reviewedAt := none, reviewedByAdminId := none } with hnewC
  set s1 : PCState :=
    { s with changes := s.changes ++ [newC],
             uploads := if d.uploadedAssetIds = [] then s.uploads
               else s.uploads.map (fun u =>
                 if u.id ∈ d.uploadedAssetIds then
                   { u with status := "referenced",
                            referencedByChangeId := some cid }
                 else u),
             ledger := s.ledger ++
               [{ idempotencyKey := k, changeId := cid, status := "completed" }],
             nextChangeId := cid + 1 } with hs1
  have h1 : submitPendingChange s pid eid now d =
      (.created cid (if d.isDraft then "draft" else "pending"), s1) := by
    unfold submitPendingChange
    rw [hk]
    simp only [Option.some_bind]
    rw [hidem]
    simp only
    rw [if_neg (not_not_intro hassign), hprop]
    simp only
    rw [hfields]
    rw [if_neg (by simp)]
    rw [if_neg (not_not_intro (Or.inr hupl))]
    rw [hconf]
  have hfound : s1.ledger.find? (fun r => decide (r.idempotencyKey = k)) =
      some { idempotencyKey := k, changeId := cid, status := "completed" } := by
    show (s.ledger ++ _).find? _ = _
    rw [find?_append_none hidem]
    simp [List.find?]
  have hchfound : s1.changes.find? (fun c => decide (c.id = cid)) = some newC := by
    show (s.changes ++ [newC]).find? _ = _
    have hpre : s.changes.find? (fun c => decide (c.id = cid)) = none := by
      apply List.find?_eq_none.2
      intro c hc
      have := hw c hc
      simp only [decide_eq_true_eq]
      omega
    rw [find?_append_none hpre]
    simp [List.find?, hnewC]
  have h2 : submitPendingChange s1 pid2 eid2 now2 d2 =
      (.idempotentReplay cid (if d.isDraft then "draft" else "pending"), s1) := by
    unfold submitPendingChange
    rw [hk2]
    simp only [Option.some_bind]
    rw [hfound]
    simp only
    rw [hchfound]
  refine ⟨s1, h1, h2, ?_, ?_⟩
  · show ((s.ledger ++ _).filter _).length = 1
    rw [List.filter_append]
    have hpre : s.ledger.filter (fun r => decide (r.idempotencyKey = k)) = [] := by
      rw [List.filter_eq_nil_iff]
      intro r hr
      simpa using List.find?_eq_none.1 hidem r hr
    rw [hpre]
    simp
  · show ((s.changes ++ [newC]).filter _).length = 1
    rw [List.filter_append]
    have hpre : s.changes.filter (fun c => decide (c.id = cid)) = [] := by
      rw [List.filter_eq_nil_iff]
      intro c hc
      have := hw c hc
      simp only [decide_eq_true_eq]
      omega
    rw [hpre]
    simp [hnewC]

/-- Property 3 assigned to employee 7, for the C3 witness. -/
def c3Property : Property :=
  { id := 3, deleted := false, fields := [], assignedEmployeeId := some 7,
    createdByEmployeeId := some 7, updatedAt := 0 }

/-- A store with one assignable property and an empty ledger. -/
def c3State : PCState :=
  { properties := [c3Property], changes := [], uploads := [], ledger := [],
    assignments := [(3, 7)], nextChangeId := 0, nextPropertyId := 4 }

/-- A submission carrying idempotency key 5. -/
def c3Data : SubmitData :=
  { proposedPayload := [("title", .str "A")], diffSummary := none,
    uploadedAssetIds := [], idempotencyKey := some 5, isDraft := false }

/-- C3 witness: the concrete replay at key 5. -/
theorem C3_idempotency_witness :
    ∃ s1 : PCState,
      submitPendingChange c3State 3 7 1 c3Data =
        (.created c3State.nextChangeId
          (if c3Data.isDraft then "draft" else "pending"), s1) ∧
      submitPendingChange s1 3 7 2 c3Data =
        (.idempotentReplay c3State.nextChangeId
          (if c3Data.isDraft then "draft" else "pending"), s1) ∧
      (s1.ledger.filter (fun r => decide (r.idempotencyKey = 5))).length = 1 ∧
      (s1.changes.filter (fun c => decide (c.id = c3State.nextChangeId))).length = 1 := by
  exact C3_idempotency c3State 3 7 1 3 7 2 c3Data c3Data 5 rfl rfl
    (by intro ch hch; simp [c3State] at hch) rfl (by simp [c3State])
    c3Property rfl rfl rfl rfl

/-! ## C9: upload ownership validation -/

/-- With pairwise-distinct upload ids, the uploads whose id lies in a list T
number at most T's length. -/
theorem countP_id_mem_le {uploads : List Upload} {T : List Nat}
    (hnodup : (uploads.map (fun u => u.id)).Nodup) :
    uploads.countP (fun u => decide (u.id ∈ T)) ≤ T.length := by
  induction uploads generalizing T with
  | nil => simp
  | cons u rest ih =>
    simp only [List.map_cons, List.nodup_cons] at hnodup
    by_cases hu : u.id ∈ T
    · have hrest : rest.countP (fun v => decide (v.id ∈ T)) =
          rest.countP (fun v => decide (v.id ∈ T.erase u.id)) := by
        apply countP_congr_of_eq
        intro v hv
        have hne : v.id ≠ u.id := by
          intro h
          exact hnodup.1 (h ▸ List.mem_map_of_mem (fun w => w.id) hv)
        simp [List.mem_erase_of_ne hne]
      have hlen : (T.erase u.id).length = T.length - 1 :=
        List.length_erase_of_mem hu
      have hih := ih (T := T.erase u.id) hnodup.2
      rw [hlen] at hih
      have hT1 : 1 ≤ T.length := List.length_pos.2 (by rintro rfl; cases hu)
      rw [List.countP_cons, hrest]
      simp only [hu, decide_True, if_true]
      omega
    · simp only [List.countP_cons, hu, decide_False]
      simpa using ih (T := T) hnodup.2

/-- When some requested id has no upload owned by the caller, the ownership
filter returns strictly fewer rows than requested ids. -/
theorem filter_owned_length_lt {uploads : List Upload} {S : List Nat}
    {eid uid : Nat}
    (hnodup : (uploads.map (fun u => u.id)).Nodup)
    (huid : uid ∈ S)
    (hbad : ∀ u ∈ uploads, ¬ (u.id = uid ∧ u.ownerId = eid)) :
    (uploads.filter (fun u => decide (u.id ∈ S ∧ u.ownerId = eid))).length
      < S.length := by
  rw [← List.countP_eq_length_filter]
  have hstep : uploads.countP (fun u => decide (u.id ∈ S ∧ u.ownerId = eid)) ≤
      uploads.countP (fun u => decide (u.id ∈ S.erase uid)) := by
    apply countP_mono_of_imp
    intro u hu hp
    simp only [decide_eq_true_eq] at hp ⊢
    have hne : u.id ≠ uid := by
      intro h
      exact hbad u hu ⟨h, hp.2⟩
    exact (List.mem_erase_of_ne hne).2 hp.1
  have hle := countP_id_mem_le (T := S.erase uid) hnodup
  have hlen : (S.erase uid).length = S.length - 1 :=
    List.length_erase_of_mem huid
  have hS1 : 1 ≤ S.length := List.length_pos.2 (by rintro rfl; cases huid)
  omega

/-- C9 (amended): the ownership half of the claim holds — a submission whose
uploadedAssetIds contain an id that does not exist among the uploads or is
owned by a different actor fails with the invalid-upload-references 400 and
writes nothing.  The at-most-one-reference half is false: the validation
never checks whether an upload is already referenced, so successive
submissions can consume the same upload, the back-reference being
overwritten to the latest change (see the counterexample). -/
theorem C9_upload_ownership (s : PCState) (pid eid now : Nat) (d : SubmitData)
    (hnokey : d.idempotencyKey = none)
    (hassign : (pid, eid) ∈ s.assignments)
    (prop : Property)
    (hprop : s.properties.find? (fun p => decide (p.id = pid ∧ p.deleted = false))
      = some prop)
    (hfields : (d.proposedPayload.map (fun kv => kv.1)).filter
      (fun f => decide (f ∉ ALLOWED_EMPLOYEE_FIELDS)) = [])
    (hnodup : (s.uploads.map (fun u => u.id)).Nodup)
    (uid : Nat) (huid : uid ∈ d.uploadedAssetIds)
    (hbad : ∀ u ∈ s.uploads, ¬ (u.id = uid ∧ u.ownerId = eid)) :
    submitPendingChange s pid eid now d = (.invalidUploads, s) := by
  have hlt := filter_owned_length_lt (S := d.uploadedAssetIds)
    hnodup huid hbad
  have hnotok : ¬ (d.uploadedAssetIds = [] ∨
      (s.uploads.filter (fun u => decide (u.id ∈ d.uploadedAssetIds ∧
        u.ownerId = eid))).length = d.uploadedAssetIds.length) := by
    rintro (hnil | hlen)
    · rw [hnil] at huid
      cases huid
    · omega
  unfold submitPendingChange
  rw [hnokey]
  simp only [Option.none_bind]
  rw [if_neg (not_not_intro hassign), hprop]
  simp only
  rw [hfields]
  rw [if_neg (by simp)]
  rw [if_pos hnotok]

/-- An upload owned by employee 8 (not the caller), for the C9 witness. -/
def c9wUpload : Upload :=
  { id := 4, ownerId := 8, status := "uploaded", referencedByChangeId := none }

/-- A store where property 3 is assigned to employee 7, but upload 4 belongs
to employee 8. -/
def c9wState : PCState :=
  { properties := [c9Property], changes := [], uploads := [c9wUpload],
    ledger := [], assignments := [(3, 7)], nextChangeId := 0, nextPropertyId := 4 }

/-- A submission by employee 7 referencing employee 8's upload. -/
def c9wData : SubmitData :=
  { proposedPayload := [("title", .str "A")], diffSummary := none,
    uploadedAssetIds := [4], idempotencyKey := none, isDraft := false }

/-- C9 witness: the foreign-owned upload reference is rejected and writes
nothing. -/
theorem C9_upload_ownership_witness :
    submitPendingChange c9wState 3 7 1 c9wData = (.invalidUploads, c9wState) := by
  exact C9_upload_ownership c9wState 3 7 1 c9wData rfl (by simp [c9wState])
    c9Property rfl rfl (by simp [c9wState]) 4 (by simp [c9wData])
    (by intro u hu; simp [c9wState] at hu; subst hu; simp [c9wUpload])

/-! ## C2: the one-live-pending invariant -/

/-- Well-formed change ids: pairwise distinct (the uuid primary key) and
below the freshness counter. -/
def ChangeIdsOk (changes : List PendingChange) (next : Nat) : Prop :=
  (changes.map (fun c => c.id)).Nodup ∧ ∀ c ∈ changes, c.id < next

/-- At most one live pending change per (target, proposer) pair. -/
def OneLive (changes : List PendingChange) : Prop :=
  ∀ t p, changes.countP (isLivePendingFor t p) ≤ 1

/-- The combined invariant carried through every operation. -/
def PCInv (s : PCState) : Prop :=
  ChangeIdsOk s.changes s.nextChangeId ∧ OneLive s.changes

theorem changeIdsOk_map {l : List PendingChange} {n cid : Nat}
    {g : PendingChange → PendingChange} (hg : ∀ c, (g c).id = c.id)
    (h : ChangeIdsOk l n) :
    ChangeIdsOk (l.map (fun c => if c.id = cid then g c else c)) n := by
  constructor
  · have : (l.map (fun c => if c.id = cid then g c else c)).map (fun c => c.id)
        = l.map (fun c => c.id) := by
      rw [List.map_map]
      apply List.map_congr_left
      intro c hc
      by_cases hid : c.id = cid <;> simp [Function.comp, hid, hg]
    rw [this]
    exact h.1
  · intro c hc
    obtain ⟨x, hx, hxc⟩ := List.mem_map.1 hc
    have := h.2 x hx
    by_cases hid : x.id = cid
    · rw [if_pos hid] at hxc
      rw [← hxc, hg]
      exact this
    · rw [if_neg hid] at hxc
      rw [← hxc]
      exact this

theorem changeIdsOk_filter {l : List PendingChange} {n : Nat}
    {q : PendingChange → Bool} (h : ChangeIdsOk l n) :
    ChangeIdsOk (l.filter q) n := by
  constructor
  · exact ((List.filter_sublist (p := q) l).map (fun c => c.id)).nodup h.1
  · intro c hc
    exact h.2 c (List.mem_of_mem_filter hc)

theorem changeIdsOk_append {l : List PendingChange} {n : Nat} {c : PendingChange}
    (h : ChangeIdsOk l n) (hc : c.id = n) : ChangeIdsOk (l ++ [c]) (n + 1) := by
  constructor
  · rw [List.map_append, List.nodup_append]
    refine ⟨h.1, by simp, ?_⟩
    intro x hx
    obtain ⟨y, hy, hyx⟩ := List.mem_map.1 hx
    have := h.2 y hy
    simp only [List.map_cons, List.map_nil, List.mem_singleton]
    intro heq
    rw [heq, hc] at hyx
    omega
  · intro x hx
    rcases List.mem_append.1 hx with hm | hm
    · have := h.2 x hm
      omega
    · simp only [List.mem_singleton] at hm
      rw [hm, hc]
      omega

theorem oneLive_map {l : List PendingChange} {cid : Nat}
    {g : PendingChange → PendingChange}
    (hgp : ∀ t p c, isLivePendingFor t p (g c) = true →
      isLivePendingFor t p c = true)
    (h : OneLive l) :
    OneLive (l.map (fun c => if c.id = cid then g c else c)) := by
  intro t p
  refine le_trans (countP_map_le_of_imp ?_) (h t p)
  intro c _ hgc
  by_cases hid : c.id = cid
  · rw [if_pos hid] at hgc
    exact hgp t p c hgc
  · rwa [if_neg hid] at hgc

theorem oneLive_filter {l : List PendingChange} {q : PendingChange → Bool}
    (h : OneLive l) : OneLive (l.filter q) :=
  fun t p => le_trans (countP_filter_le l (isLivePendingFor t p) q) (h t p)

theorem countP_singleton_le_one {α} (q : α → Bool) (x : α) :
    List.countP q [x] ≤ 1 := by
  rw [List.countP_cons]
  by_cases hq : q x = true <;> simp [hq]

/-- Rows mapped by a status-killing rewrite never gain liveness; used for
reject, requestChanges, approve finalization and withdraw-to-draft. -/
theorem oneLive_map_kill {l : List PendingChange} {cid : Nat}
    {g : PendingChange → PendingChange}
    (hkill : ∀ c, (g c).status ≠ "pending" ∨ (g c).isDraft = true)
    (h : OneLive l) :
    OneLive (l.map (fun c => if c.id = cid then g c else c)) := by
  apply oneLive_map (h := h)
  intro t p c hgc
  exfalso
  simp only [isLivePendingFor, decide_eq_true_eq] at hgc
  rcases hkill c with hk | hk
  · exact hk hgc.2.2.1
  · rw [hgc.2.2.2] at hk
    cases hk

/-- Appending one row keeps the one-live invariant provided the new row, when
live for a pair, is the only live row for that pair. -/
theorem oneLive_insert {l : List PendingChange} {c : PendingChange}
    (h : OneLive l)
    (hc : ∀ t p, isLivePendingFor t p c = true →
      l.countP (isLivePendingFor t p) = 0) :
    OneLive (l ++ [c]) := by
  intro t p
  rw [List.countP_append]
  by_cases hlive : isLivePendingFor t p c = true
  · have h0 := hc t p hlive
    have h1 := countP_singleton_le_one (isLivePendingFor t p) c
    omega
  · have h0 : List.countP (isLivePendingFor t p) [c] = 0 := by
      rw [List.countP_eq_zero]
      intro x hx
      simp only [List.mem_singleton] at hx
      subst hx
      exact hlive
    have := h t p
    omega

/-- submitDraft preserves the invariant: the draft being flipped to pending
is the unique row with its id, and the conflict check has ruled out any other
live row for its (property, proposer) pair. -/
theorem submitDraft_preserves (s : PCState) (cid eid : Nat)
    (h : PCInv s) : PCInv (submitDraft s cid eid).2 := by
  obtain ⟨hids, hone⟩ := h
  simp only [submitDraft]
  split
  · exact ⟨hids, hone⟩
  · rename_i change hfind
    have hmem : change ∈ s.changes := List.mem_of_find?_eq_some hfind
    have hpred := List.find?_some hfind
    simp only [decide_eq_true_eq] at hpred
    obtain ⟨hcid, hceid, _⟩ := hpred
    have hinj : ∀ c ∈ s.changes, c.id = cid → c = change := by
      intro c hc hcc
      exact List.inj_on_of_nodup_map hids.1 hc hmem (by rw [hcc, hcid])
    split
    · exact ⟨hids, hone⟩
    · rename_i hconf
      refine ⟨changeIdsOk_map (fun c => rfl) hids, ?_⟩
      intro t p
      rw [countP_map_list]
      rcases hprop : change.propertyId with _ | pid
      · refine le_trans (countP_mono_of_imp ?_) (hone t p)
        intro c hc hlive
        by_cases hcc : c.id = cid
        · exfalso
          have hce := hinj c hc hcc
          subst hce
          rw [if_pos hcc] at hlive
          simp [isLivePendingFor, hprop] at hlive
        · rwa [if_neg hcc] at hlive
      · rw [hprop] at hconf
        by_cases hpair : pid = t ∧ eid = p
        · obtain ⟨rfl, rfl⟩ := hpair
          have hq0 : s.changes.countP
              (fun c => isLivePendingFor pid eid c && decide (c.id ≠ cid)) = 0 := by
            rw [List.countP_eq_zero]
            intro c hc
            exact List.find?_eq_none.1 hconf c hc
          have hr1 : s.changes.countP (fun c => decide (c.id = cid)) ≤ 1 :=
            countP_key_le_one hids.1
          refine le_trans (countP_le_add_of_imp
            (q := fun c => isLivePendingFor pid eid c && decide (c.id ≠ cid))
            (r := fun c => decide (c.id = cid)) ?_) ?_
          · intro c _ hlive
            by_cases hcc : c.id = cid
            · right
              exact decide_eq_true hcc
            · left
              have hlive2 : isLivePendingFor pid eid
                  (if c.id = cid then { c with isDraft := false, status := "pending" }
                   else c) = true := hlive
              rw [if_neg hcc] at hlive2
              simp [hlive2, hcc]
          · omega
        · refine le_trans (countP_mono_of_imp ?_) (hone t p)
          intro c hc hlive
          by_cases hcc : c.id = cid
          · exfalso
            have hce := hinj c hc hcc
            subst hce
            rw [if_pos hcc] at hlive
            simp only [isLivePendingFor, decide_eq_true_eq, Option.some.injEq] at hlive
            rw [hprop] at hlive
            simp only [Option.some.injEq] at hlive
            exact hpair ⟨hlive.1, hceid ▸ hlive.2.1⟩
          · rwa [if_neg hcc] at hlive

/-- One operation preserves the invariant. -/
theorem applyPCOp_preserves (s : PCState) (op : PCOp) (h : PCInv s) :
    PCInv (applyPCOp s op) := by
  obtain ⟨hids, hone⟩ := h
  cases op with
  | submit pid eid now data =>
    show PCInv (submitPendingChange s pid eid now data).2
    simp only [submitPendingChange]
    split
    · split
      · exact ⟨hids, hone⟩
      · exact ⟨hids, hone⟩
    · split
      · exact ⟨hids, hone⟩
      · split
        · exact ⟨hids, hone⟩
        · split
          · exact ⟨hids, hone⟩
          · split
            · exact ⟨hids, hone⟩
            · split
              · exact ⟨hids, hone⟩
              · rename_i heqconf
                refine ⟨changeIdsOk_append hids rfl, oneLive_insert hone ?_⟩
                intro t p hlive
                simp only [isLivePendingFor, decide_eq_true_eq,
                  Option.some.injEq] at hlive
                obtain ⟨rfl, rfl, h3, h4⟩ := hlive
                rw [h4, if_neg Bool.false_ne_true] at heqconf
                rw [List.countP_eq_zero]
                intro c hc
                exact List.find?_eq_none.1 heqconf c hc
  | create eid now payload isDraft =>
    show PCInv (createProperty s eid now payload isDraft).2
    simp only [createProperty]
    refine ⟨changeIdsOk_append hids rfl, oneLive_insert hone ?_⟩
    intro t p hlive
    simp [isLivePendingFor] at hlive
  | upDraft cid eid payload =>
    show PCInv (updateDraft s cid eid payload).2
    simp only [updateDraft]
    split
    · exact ⟨hids, hone⟩
    · refine ⟨changeIdsOk_map (fun c => rfl) hids, ?_⟩
      apply oneLive_map (h := hone)
      intro t p c hgc
      simpa [isLivePendingFor] using hgc
  | subDraft cid eid =>
    show PCInv (submitDraft s cid eid).2
    exact submitDraft_preserves s cid eid ⟨hids, hone⟩
  | withdraw cid eid mtd =>
    show PCInv (withdrawPendingChange s cid eid mtd).2
    simp only [withdrawPendingChange]
    split
    · exact ⟨hids, hone⟩
    · split
      · exact ⟨changeIdsOk_map (fun c => rfl) hids,
          oneLive_map_kill (fun c => Or.inr rfl) hone⟩
      · exact ⟨changeIdsOk_filter hids, oneLive_filter hone⟩
  | discard cid eid =>
    show PCInv (discardDraft s cid eid).2
    simp only [discardDraft]
    exact ⟨changeIdsOk_filter hids, oneLive_filter hone⟩
  | approve cid aid now applyAs mp ff =>
    show PCInv (approvePendingChange s cid aid now applyAs mp ff).2
    simp only [approvePendingChange]
    repeat' split
    all_goals try exact ⟨hids, hone⟩
    all_goals
      exact ⟨changeIdsOk_map (fun c => rfl) hids,
        oneLive_map_kill (fun c => Or.inl (by simp)) hone⟩
  | reject cid aid now reason =>
    show PCInv (rejectPendingChange s cid aid now reason).2
    simp only [rejectPendingChange]
    repeat' split
    all_goals try exact ⟨hids, hone⟩
    all_goals
      exact ⟨changeIdsOk_map (fun c => rfl) hids,
        oneLive_map_kill (fun c => Or.inl (by simp)) hone⟩
  | reqRevision cid aid now comments =>
    show PCInv (requestChanges s cid aid now comments).2
    simp only [requestChanges]
    repeat' split
    all_goals try exact ⟨hids, hone⟩
    all_goals
      exact ⟨changeIdsOk_map (fun c => rfl) hids,
        oneLive_map_kill (fun c => Or.inl (by simp)) hone⟩

/-! ## C2: the one-live-pending invariant -/

/-- A live pending change for (property 3, proposer 7). -/
def c2Live : PendingChange :=
  { id := 0, propertyId := some 3, proposerId := 7, proposedPayload := [],
    diffSummary := none, status := "pending", reason := none, isDraft := false,
    createdAt := 0, reviewedAt := none, reviewedByAdminId := none }

/-- A draft by the same proposer against the same property. -/
def c2Draft : PendingChange :=
  { id := 1, propertyId := some 3, proposerId := 7, proposedPayload := [],
    diffSummary := none, status := "draft", reason := none, isDraft := true,
    createdAt := 0, reviewedAt := none, reviewedByAdminId := none }

/-- The property both changes target. -/
def c2Property : Property :=
  { id := 3, deleted := false, fields := [], assignedEmployeeId := some 7,
    createdByEmployeeId := some 7, updatedAt := 0 }

/-- A store already holding the live pending change. -/
def c2State : PCState :=
  { properties := [c2Property], changes := [c2Live], uploads := [], ledger := [],
    assignments := [(3, 7)], nextChangeId := 1, nextPropertyId := 4 }

/-- The same store with the draft alongside the live pending change. -/
def c2State2 : PCState :=
  { properties := [c2Property], changes := [c2Live, c2Draft], uploads := [],
    ledger := [], assignments := [(3, 7)], nextChangeId := 2, nextPropertyId := 4 }

/-- A fresh non-draft submission against property 3 by proposer 7. -/
def c2Data : SubmitData :=
  { proposedPayload := [], diffSummary := none, uploadedAssetIds := [],
    idempotencyKey := none, isDraft := false }

/-- C2: (a) starting from any store satisfying the invariant (for instance the
empty store), after any sequence of non-concurrent submit, create, updateDraft,
submitDraft, withdraw, discard, approve, reject and requestChanges operations,
at most one PendingChange with status 'pending' and isDraft false exists per
(target property, proposer) pair; (b) a non-draft submission that passes the
idempotency, assignment, property, field and upload checks while a live pending
change exists for the pair returns the 409 conflict carrying the existing
change's id and display title and leaves the store unchanged; (c) submitDraft
on a found draft/needs-revision change whose target has another live pending
change likewise returns the conflict with that change's id and display title
and leaves the store unchanged. -/
theorem C2_one_live_pending :
    (∀ (s : PCState) (ops : List PCOp), PCInv s →
      ∀ t p, livePendingCount (runPCOps s ops) t p ≤ 1) ∧
    (∀ (s : PCState) (pid eid now : Nat) (data : SubmitData)
      (ex : PendingChange) (pr : Property),
      data.idempotencyKey.bind (fun k =>
        s.ledger.find? (fun r => decide (r.idempotencyKey = k))) = none →
      (pid, eid) ∈ s.assignments →
      s.properties.find? (fun q => decide (q.id = pid ∧ q.deleted = false))
        = some pr →
      (data.proposedPayload.map (fun kv => kv.1)).filter
        (fun f => decide (f ∉ ALLOWED_EMPLOYEE_FIELDS)) = [] →
      (data.uploadedAssetIds = [] ∨
        (s.uploads.filter (fun u => decide (u.id ∈ data.uploadedAssetIds ∧
          u.ownerId = eid))).length = data.uploadedAssetIds.length) →
      data.isDraft = false →
      s.changes.find? (isLivePendingFor pid eid) = some ex →
      submitPendingChange s pid eid now data =
        (.pendingConflict ex.id (displayTitle ex.proposedPayload), s)) ∧
    (∀ (s : PCState) (cid eid : Nat) (change ex : PendingChange) (pid : Nat),
      s.changes.find? (fun c => decide (c.id = cid ∧ c.proposerId = eid ∧
        (c.isDraft = true ∨ c.status = "needs_revision"))) = some change →
      change.propertyId = some pid →
      s.changes.find? (fun c =>
        isLivePendingFor pid eid c && decide (c.id ≠ cid)) = some ex →
      submitDraft s cid eid =
        (.conflict ex.id (displayTitle ex.proposedPayload), s)) := by
  refine ⟨?_, ?_, ?_⟩
  · intro s ops hinv t p
    have hrun : ∀ s0 : PCState, PCInv s0 → PCInv (runPCOps s0 ops) := by
      induction ops with
      | nil => exact fun s0 hs => hs
      | cons op rest ih =>
        exact fun s0 hs => ih (applyPCOp s0 op) (applyPCOp_preserves s0 op hs)
    exact (hrun s hinv).2 t p
  · intro s pid eid now data ex pr hidem hass hpr hfields hupl hdraft hconf
    unfold submitPendingChange
    rw [hidem]
    simp only
    rw [if_neg (not_not_intro hass), hpr]
    simp only
    rw [hfields]
    rw [if_neg (by simp)]
    rw [if_neg (not_not_intro hupl)]
    rw [hdraft, if_neg Bool.false_ne_true, hconf]
  · intro s cid eid change ex pid hfind hpid hconf
    unfold submitDraft
    rw [hfind]
    simp only
    rw [hpid]
    simp only
    rw [hconf]

/-- C2 witness: the invariant after a concrete creation from the empty store,
and the two concrete 409 conflicts against the stored live pending change. -/
theorem C2_one_live_pending_witness :
    livePendingCount (runPCOps PCState.empty
      [PCOp.create 7 1 [("title", PVal.str "T")] false]) 3 7 ≤ 1 ∧
    submitPendingChange c2State 3 7 5 c2Data =
      (.pendingConflict c2Live.id (displayTitle c2Live.proposedPayload),
        c2State) ∧
    submitDraft c2State2 1 7 =
      (.conflict c2Live.id (displayTitle c2Live.proposedPayload), c2State2) := by
  refine ⟨C2_one_live_pending.1 PCState.empty _
      ⟨⟨List.nodup_nil, by intro c hc; cases hc⟩,
        fun t p => by
          rw [show PCState.empty.changes = [] from rfl, List.countP_nil]
          omega⟩ 3 7,
    C2_one_live_pending.2.1 c2State 3 7 5 c2Data c2Live c2Property rfl
      (by decide) rfl rfl (Or.inl rfl) rfl rfl,
    C2_one_live_pending.2.2 c2State2 1 7 c2Draft c2Live 3 rfl rfl rfl⟩

end KrkFd
